import Mathlib

/-!
Verification of the bouncer repository's core subsystems against its
natural-language specification.

The Rust source is shallowly embedded: Rust `&str`/`String` values are
modelled as `List Char` (`RStr`), byte buffers as `List Nat` with every
byte `< 256`, machine integers as `Nat`/`Int`, filesystem and database
state as explicit association lists, and fallible I/O steps as an
explicit fault-schedule parameter.  Every definition mirrors the Rust
function of the same name; deviations forced by the embedding (external
crates, timestamps, I/O) are noted in the doc comment of the definition
concerned.
-/

namespace Bouncer

/-- Rust string, modelled as its sequence of Unicode scalar values. -/
abbrev RStr := List Char

/-- `u8::to_ascii_lowercase` lifted to chars: maps `A`..`Z` to `a`..`z`. -/
def asciiLowerChar (c : Char) : Char :=
  if 'A' ≤ c ∧ c ≤ 'Z' then Char.ofNat (c.toNat + 32) else c

/-- Rust `str::eq_ignore_ascii_case`. -/
def eqIgnoreAsciiCase (a b : RStr) : Bool :=
  a.map asciiLowerChar == b.map asciiLowerChar

/-- Rust `str::to_ascii_lowercase`. -/
def toAsciiLower (s : RStr) : RStr :=
  s.map asciiLowerChar

/-- Rust `char::is_whitespace` (the Unicode `White_Space` property). -/
def isRustWhitespace (c : Char) : Bool :=
  let n := c.toNat
  (0x09 ≤ n && n ≤ 0x0D) || n == 0x20 || n == 0x85 || n == 0xA0 ||
    n == 0x1680 || (0x2000 ≤ n && n ≤ 0x200A) || n == 0x2028 ||
    n == 0x2029 || n == 0x202F || n == 0x205F || n == 0x3000

/-- Rust `str::trim_start`. -/
def rustTrimStart (s : RStr) : RStr :=
  s.dropWhile isRustWhitespace

/-- Rust `str::trim_end`. -/
def rustTrimEnd (s : RStr) : RStr :=
  (s.reverse.dropWhile isRustWhitespace).reverse

/-- Rust `str::trim`. -/
def rustTrim (s : RStr) : RStr :=
  rustTrimEnd (rustTrimStart s)

/-- Rust `str::trim_end_matches(c)`: removes every trailing `c`. -/
def trimEndMatchesChar (c : Char) (s : RStr) : RStr :=
  (s.reverse.dropWhile (· == c)).reverse

/-- Rust `str::trim_matches(p)`: removes leading and trailing chars
satisfying `p`. -/
def trimMatchesPred (p : Char → Bool) (s : RStr) : RStr :=
  ((s.dropWhile p).reverse.dropWhile p).reverse

/-- Rust `str::split_once(sep)` for a single-char separator. -/
def splitOnceChar (sep : Char) : RStr → Option (RStr × RStr)
  | [] => none
  | c :: rest =>
    if c == sep then some ([], rest)
    else (splitOnceChar sep rest).map (fun p => (c :: p.1, p.2))

/-- Index of the first occurrence of `needle` in `hay`
(Rust `str::find(needle)`). -/
def findSubstrIdx (needle : RStr) : RStr → Option Nat
  | [] => if needle == [] then some 0 else none
  | c :: rest =>
    if needle.isPrefixOf (c :: rest) then some 0
    else (findSubstrIdx needle rest).map (· + 1)

/-- Rust `str::contains(needle)`. -/
def containsSubstr (hay needle : RStr) : Bool :=
  (findSubstrIdx needle hay).isSome

/-- Rust `str::split_once(sep)` for a string separator. -/
def splitOnceStr (sep : RStr) (s : RStr) : Option (RStr × RStr) :=
  (findSubstrIdx sep s).map (fun i => (s.take i, s.drop (i + sep.length)))

/-- Rust `str::split(p)` on a char predicate: keeps empty pieces. -/
def splitOnPred (p : Char → Bool) : RStr → List RStr
  | [] => [[]]
  | c :: rest =>
    match splitOnPred p rest with
    | [] => [[]]
    | h :: t => if p c then [] :: h :: t else (c :: h) :: t

/-- Rust `str::split_whitespace`: whitespace-separated non-empty tokens. -/
def splitWhitespace (s : RStr) : List RStr :=
  (splitOnPred isRustWhitespace s).filter (· ≠ [])

/-- Rust `str::lines`: split on `'\n'`; a trailing newline does not
produce a final empty line. -/
def rustLines (s : RStr) : List RStr :=
  if s == [] then []
  else
    let parts := splitOnPred (· == '\n') s
    if s.getLast? == some '\n' then parts.dropLast else parts

/-! ## C1: status code mapping (`database.rs::map_mail_message_status`) -/

/-- `MAIL_STATUS_SUCCESS` from `database.rs`. -/
def MAIL_STATUS_SUCCESS : Int := 7

/-- `MAIL_STATUS_PENDING` from `database.rs`. -/
def MAIL_STATUS_PENDING : Int := 3

/-- `MAIL_STATUS_SUSPENDED` from `database.rs`. -/
def MAIL_STATUS_SUSPENDED : Int := -2

/-- `MAIL_STATUS_FAILED` from `database.rs`. -/
def MAIL_STATUS_FAILED : Int := -7

/-- `ParsedBounce` from `parser.rs`. -/
structure ParsedBounce where
  hash : RStr
  status_code : RStr
  action : Option RStr
  recipient : Option RStr
  description : Option RStr
deriving DecidableEq

/-- The `match parsed.status_code.as_str()` block at the end of
`map_mail_message_status` in `database.rs`. -/
def map_status_code_match (status_code : RStr) : Int :=
  if status_code == "5.7.1".data || status_code == "5.7.2".data ||
      status_code == "5.7.3".data || status_code == "5.7.0".data then
    MAIL_STATUS_SUSPENDED
  else if "2.".data.isPrefixOf status_code then MAIL_STATUS_SUCCESS
  else if "4.".data.isPrefixOf status_code then MAIL_STATUS_PENDING
  else MAIL_STATUS_FAILED

/-- `map_mail_message_status` from `database.rs`: action classes are
checked first, then the status-code match. -/
def map_mail_message_status (parsed : ParsedBounce) : Int :=
  match parsed.action with
  | some action =>
    if eqIgnoreAsciiCase action "delivered".data ||
        eqIgnoreAsciiCase action "sent".data then
      MAIL_STATUS_SUCCESS
    else if eqIgnoreAsciiCase action "delayed".data ||
        eqIgnoreAsciiCase action "deferred".data then
      MAIL_STATUS_PENDING
    else map_status_code_match parsed.status_code
  | none => map_status_code_match parsed.status_code

/-- The status mapping exactly as the specification sentence states it
(spec §3 "Status code mapping"), written from the spec's words for
comparison with `map_mail_message_status`. -/
def specStatusMapping (action : Option RStr) (status_code : RStr) : Int :=
  if action.any (fun a => eqIgnoreAsciiCase a "delivered".data) ||
      action.any (fun a => eqIgnoreAsciiCase a "sent".data) then 7
  else if action.any (fun a => eqIgnoreAsciiCase a "delayed".data) ||
      action.any (fun a => eqIgnoreAsciiCase a "deferred".data) then 3
  else if decide (status_code ∈
      ["5.7.0".data, "5.7.1".data, "5.7.2".data, "5.7.3".data]) then -2
  else if "2.".data.isPrefixOf status_code then 7
  else if "4.".data.isPrefixOf status_code then 3
  else -7

end Bouncer

namespace Bouncer

/-- C1: the mapped mail-message status is the deterministic function of
`(action, status_code)` the spec describes, and the action checks take
precedence over the status-code checks (`action="delivered"` with
`status_code="5.7.1"` maps to `7`). -/
theorem map_mail_message_status_matches_spec :
    (∀ p : ParsedBounce,
      map_mail_message_status p = specStatusMapping p.action p.status_code) ∧
    map_mail_message_status
      ⟨"h".data, "5.7.1".data, some "delivered".data, none, none⟩ = 7 := by
  constructor
  · intro p
    rcases p with ⟨hash, code, action, recipient, description⟩
    cases action with
    | none =>
      simp only [map_mail_message_status, specStatusMapping,
        map_status_code_match, Option.any_none, Bool.or_self,
        Bool.false_or, if_neg (by decide : ¬ (false = true))]
      by_cases h570 : code = "5.7.0".data
      · simp [h570, MAIL_STATUS_SUSPENDED]
      · by_cases h571 : code = "5.7.1".data
        · simp [h571, MAIL_STATUS_SUSPENDED]
        · by_cases h572 : code = "5.7.2".data
          · simp [h572, MAIL_STATUS_SUSPENDED]
          · by_cases h573 : code = "5.7.3".data
            · simp [h573, MAIL_STATUS_SUSPENDED]
            · simp [h570, h571, h572, h573, MAIL_STATUS_SUSPENDED,
                MAIL_STATUS_SUCCESS, MAIL_STATUS_PENDING, MAIL_STATUS_FAILED]
    | some a =>
      simp only [map_mail_message_status, specStatusMapping,
        map_status_code_match, Option.any_some]
      by_cases hDel : (eqIgnoreAsciiCase a "delivered".data ||
          eqIgnoreAsciiCase a "sent".data) = true
      · simp [hDel, MAIL_STATUS_SUCCESS]
      · by_cases hPen : (eqIgnoreAsciiCase a "delayed".data ||
            eqIgnoreAsciiCase a "deferred".data) = true
        · simp [hDel, hPen, MAIL_STATUS_PENDING]
        · by_cases h570 : code = "5.7.0".data
          · simp [hDel, hPen, h570, MAIL_STATUS_SUSPENDED]
          · by_cases h571 : code = "5.7.1".data
            · simp [hDel, hPen, h571, MAIL_STATUS_SUSPENDED]
            · by_cases h572 : code = "5.7.2".data
              · simp [hDel, hPen, h572, MAIL_STATUS_SUSPENDED]
              · by_cases h573 : code = "5.7.3".data
                · simp [hDel, hPen, h573, MAIL_STATUS_SUSPENDED]
                · simp [hDel, hPen, h570, h571, h572, h573,
                    MAIL_STATUS_SUSPENDED, MAIL_STATUS_SUCCESS,
                    MAIL_STATUS_PENDING, MAIL_STATUS_FAILED]
  · decide

end Bouncer

/-! ## C4: frame encode/decode (`bouncer-proto/src/lib.rs`) -/

namespace Bouncer

/-- `MAGIC` from `bouncer-proto/src/lib.rs`: the bytes `BNCE`. -/
def MAGIC : List Nat := [0x42, 0x4E, 0x43, 0x45]

/-- `ProtoError` from `bouncer-proto/src/lib.rs`; `ioEof` stands for the
`Io` variant raised when `read_exact` hits end of input. -/
inductive ProtoError where
  | invalidMagic
  | headerTooLarge (n : Nat)
  | bodyTooLarge (n : Nat)
  | ioEof
deriving DecidableEq

/-- Big-endian byte encoding of `n` in width `w`
(`u32::to_be_bytes` / `u64::to_be_bytes` with `w = 4` / `8`). -/
def natToBeBytes : Nat → Nat → List Nat
  | 0, _ => []
  | w + 1, n => natToBeBytes w (n / 256) ++ [n % 256]

/-- `u32::from_be_bytes` / `u64::from_be_bytes`. -/
def beBytesToNat (bs : List Nat) : Nat :=
  bs.foldl (fun acc b => acc * 256 + b) 0

/-- `write_frame_async` from `bouncer-proto/src/lib.rs`: the async writer
is modelled by the concatenation of the chunks it writes, and a
`u32::try_from` / `u64::try_from` failure by the corresponding error. -/
def write_frame_async (header body : List Nat) : Except ProtoError (List Nat) :=
  if header.length < 2 ^ 32 then
    if body.length < 2 ^ 64 then
      .ok (MAGIC ++ natToBeBytes 4 header.length ++
        natToBeBytes 8 body.length ++ header ++ body)
    else .error (.bodyTooLarge (2 ^ 64 - 1))
  else .error (.headerTooLarge (2 ^ 32 - 1))

/-- `AsyncReadExt::read_exact`: consumes exactly `n` bytes of the input
stream, or fails with an I/O end-of-file error. -/
def readExact (n : Nat) (s : List Nat) :
    Except ProtoError (List Nat × List Nat) :=
  if n ≤ s.length then .ok (s.take n, s.drop n) else .error .ioEof

/-- `read_frame_async` from `bouncer-proto/src/lib.rs`, over an input
byte stream; returns the decoded `(header, body)` and the unread rest of
the stream. -/
def read_frame_async (input : List Nat) (max_header_len max_body_len : Nat) :
    Except ProtoError ((List Nat × List Nat) × List Nat) :=
  match readExact 4 input with
  | .error e => .error e
  | .ok (magic, s1) =>
    if magic ≠ MAGIC then .error .invalidMagic
    else
      match readExact 4 s1 with
      | .error e => .error e
      | .ok (header_len_buf, s2) =>
        let header_len := beBytesToNat header_len_buf
        if max_header_len < header_len then .error (.headerTooLarge header_len)
        else
          match readExact 8 s2 with
          | .error e => .error e
          | .ok (body_len_buf, s3) =>
            let body_len := beBytesToNat body_len_buf
            if max_body_len < body_len then .error (.bodyTooLarge body_len)
            else
              match readExact header_len s3 with
              | .error e => .error e
              | .ok (header, s4) =>
                match readExact body_len s4 with
                | .error e => .error e
                | .ok (body, s5) => .ok ((header, body), s5)

theorem natToBeBytes_length (w n : Nat) : (natToBeBytes w n).length = w := by
  induction w generalizing n with
  | zero => rfl
  | succ w ih => simp [natToBeBytes, ih]

theorem beBytesToNat_natToBeBytes (w n : Nat) :
    beBytesToNat (natToBeBytes w n) = n % 256 ^ w := by
  induction w generalizing n with
  | zero => simp [natToBeBytes, beBytesToNat, Nat.mod_one]
  | succ w ih =>
    have hfold : ∀ (xs : List Nat) (b : Nat),
        beBytesToNat (xs ++ [b]) = beBytesToNat xs * 256 + b := by
      intro xs b
      simp [beBytesToNat, List.foldl_append]
    rw [natToBeBytes, hfold, ih]
    have hmul : (256 : Nat) ^ (w + 1) = 256 * 256 ^ w := by
      rw [pow_succ, Nat.mul_comm]
    rw [hmul, Nat.mod_mul]
    ring

theorem readExact_of_len {n : Nat} (xs ys : List Nat) (h : xs.length = n) :
    readExact n (xs ++ ys) = .ok (xs, ys) := by
  subst h
  simp [readExact, List.take_left, List.drop_left]

/-- C4: frame round-trip. If the header length fits `u32`, the body
length fits `u64`, and both are within the decoder's maxima, then
decoding the encoder's output yields exactly the original pair (and
leaves any trailing stream bytes unread). -/
theorem frame_roundtrip (header body : List Nat) (maxH maxB : Nat)
    (rest : List Nat) (hH : header.length ≤ maxH) (hB : body.length ≤ maxB)
    (hHfit : header.length < 2 ^ 32) (hBfit : body.length < 2 ^ 64) :
    ∃ bytes, write_frame_async header body = .ok bytes ∧
      read_frame_async (bytes ++ rest) maxH maxB = .ok ((header, body), rest) := by
  refine ⟨MAGIC ++ natToBeBytes 4 header.length ++
    natToBeBytes 8 body.length ++ header ++ body, ?_, ?_⟩
  · unfold write_frame_async
    rw [if_pos hHfit, if_pos hBfit]
  · have e : (MAGIC ++ natToBeBytes 4 header.length ++
        natToBeBytes 8 body.length ++ header ++ body) ++ rest =
        MAGIC ++ (natToBeBytes 4 header.length ++
          (natToBeBytes 8 body.length ++ (header ++ (body ++ rest)))) := by
      simp [List.append_assoc]
    have r1 := readExact_of_len (n := 4) MAGIC
      (natToBeBytes 4 header.length ++
        (natToBeBytes 8 body.length ++ (header ++ (body ++ rest)))) rfl
    have r2 := readExact_of_len (n := 4) (natToBeBytes 4 header.length)
      (natToBeBytes 8 body.length ++ (header ++ (body ++ rest)))
      (natToBeBytes_length 4 header.length)
    have r3 := readExact_of_len (n := 8) (natToBeBytes 8 body.length)
      (header ++ (body ++ rest)) (natToBeBytes_length 8 body.length)
    have r4 := readExact_of_len (n := header.length) header (body ++ rest) rfl
    have r5 := readExact_of_len (n := body.length) body rest rfl
    have h4 : beBytesToNat (natToBeBytes 4 header.length) = header.length := by
      rw [beBytesToNat_natToBeBytes]
      exact Nat.mod_eq_of_lt (by norm_num at hHfit ⊢; exact hHfit)
    have h8 : beBytesToNat (natToBeBytes 8 body.length) = body.length := by
      rw [beBytesToNat_natToBeBytes]
      exact Nat.mod_eq_of_lt (by norm_num at hBfit ⊢; exact hBfit)
    rw [read_frame_async, e, r1]
    simp only [h4, h8, r2, r3, r4, r5, Nat.not_lt.mpr hH, Nat.not_lt.mpr hB,
      if_false, ne_eq, not_true_eq_false, if_neg, ite_false]

/-- Witness for C4 at a concrete frame. -/
theorem frame_roundtrip_witness :
    ∃ bytes, write_frame_async [1, 2] [3, 4, 5] = .ok bytes ∧
      read_frame_async (bytes ++ [9]) 10 20 = .ok (([1, 2], [3, 4, 5]), [9]) :=
  frame_roundtrip [1, 2] [3, 4, 5] 10 20 [9] (by decide) (by decide)
    (by norm_num) (by norm_num)

end Bouncer

/-! ## C2: spool enqueue atomicity (`spool.rs`, `bounce-delivery/src/main.rs`) -/

namespace Bouncer

/-- Association-list update keyed by a string: replaces the first
binding of `k`, else appends (map/filesystem write semantics). -/
def assocSet {α : Type} : List (RStr × α) → RStr → α → List (RStr × α)
  | [], k, v => [(k, v)]
  | e :: rest, k, v =>
    if e.1 == k then (k, v) :: rest else e :: assocSet rest k v

/-- Association-list lookup. -/
def assocGet {α : Type} : List (RStr × α) → RStr → Option α
  | [], _ => none
  | e :: rest, k => if e.1 == k then some e.2 else assocGet rest k

/-- Association-list removal of every binding of `k`. -/
def assocRemove {α : Type} : List (RStr × α) → RStr → List (RStr × α)
  | [], _ => []
  | e :: rest, k =>
    if e.1 == k then assocRemove rest k else e :: assocRemove rest k

theorem assocGet_set_self {α : Type} (l : List (RStr × α)) (k : RStr)
    (v : α) : assocGet (assocSet l k v) k = some v := by
  induction l with
  | nil => simp [assocSet, assocGet]
  | cons e rest ih =>
    by_cases he : e.1 == k
    · simp [assocSet, assocGet, he]
    · simp [assocSet, assocGet, he, ih]

theorem assocGet_set_ne {α : Type} (l : List (RStr × α)) (k k' : RStr)
    (v : α) (h : k' ≠ k) : assocGet (assocSet l k v) k' = assocGet l k' := by
  induction l with
  | nil => simp [assocSet, assocGet, beq_iff_eq, Ne.symm h]
  | cons e rest ih =>
    by_cases he : e.1 == k
    · have hek : e.1 = k := by simpa using he
      simp [assocSet, assocGet, he, hek, beq_iff_eq, Ne.symm h]
    · simp only [assocSet, he, if_false, Bool.false_eq_true]
      by_cases he' : e.1 == k'
      · simp [assocGet, he']
      · simp [assocGet, he', ih]

theorem assocGet_remove_ne {α : Type} (l : List (RStr × α)) (k k' : RStr)
    (h : k' ≠ k) : assocGet (assocRemove l k) k' = assocGet l k' := by
  induction l with
  | nil => simp [assocRemove, assocGet]
  | cons e rest ih =>
    by_cases he : e.1 == k
    · have hek : e.1 = k := by simpa using he
      simp [assocRemove, assocGet, he, hek, beq_iff_eq, Ne.symm h, ih]
    · by_cases he' : e.1 == k'
      · simp [assocRemove, assocGet, he, he']
      · simp [assocRemove, assocGet, he, he', ih]

theorem assocRemove_set {α : Type} (l : List (RStr × α)) (k : RStr)
    (v : α) : assocRemove (assocSet l k v) k = assocRemove l k := by
  induction l with
  | nil => simp [assocSet, assocRemove]
  | cons e rest ih =>
    by_cases he : e.1 == k
    · simp [assocSet, assocRemove, he]
    · simp [assocSet, assocRemove, he, ih]

theorem assocRemove_of_get_none {α : Type} (l : List (RStr × α))
    (k : RStr) (h : assocGet l k = none) : assocRemove l k = l := by
  induction l with
  | nil => rfl
  | cons e rest ih =>
    by_cases he : e.1 == k
    · simp [assocGet, he] at h
    · simp only [assocGet, he, Bool.false_eq_true, if_false] at h
      simp [assocRemove, he, ih h]

/-- Contents of the `incoming/` directory: file name ↦ file bytes. -/
abbrev FileSys := List (RStr × List Nat)

/-- Which I/O step of a temp-file-then-rename write fails, if any. -/
inductive IoFault where
  | noFault
  | createFails
  | writeFails
  | syncFails
  | renameFails
deriving DecidableEq

namespace Spool

/-- `Spool::enqueue_mail` from `spool.rs`, over the contents of
`incoming/`.  `Uuid::now_v7()` is abstracted as the `id` parameter and
fallible I/O as the `fault` schedule; the result pairs the directory
state after the call with the Rust return value.  The source propagates
every error with `?` and contains no `remove_file` call, so a failing
step leaves the directory as it was at that step. -/
def enqueue_mail (fs : FileSys) (id : RStr) (payload : List Nat)
    (fault : IoFault) : FileSys × Except Unit RStr :=
  let file_name := id ++ ".eml".data
  let tmp_name := id ++ ".eml.tmp".data
  if fault = .createFails then (fs, .error ())
  else
    let fs1 := assocSet fs tmp_name []
    if fault = .writeFails then (fs1, .error ())
    else
      let fs2 := assocSet fs1 tmp_name payload
      if fault = .syncFails then (fs2, .error ())
      else if fault = .renameFails then (fs2, .error ())
      else (assocSet (assocRemove fs2 tmp_name) file_name payload,
        .ok file_name)

end Spool

/-- `write_temp_and_rename` from `bounce-delivery/src/main.rs`: unlike
`Spool::enqueue_mail` it removes the temp file when the write or the
fsync fails (but not when the rename fails). -/
def write_temp_and_rename (fs : FileSys) (tmp_path final_path : RStr)
    (body : List Nat) (fault : IoFault) : FileSys × Except Unit Unit :=
  if fault = .createFails then (fs, .error ())
  else
    let fs1 := assocSet fs tmp_path []
    if fault = .writeFails then (assocRemove fs1 tmp_path, .error ())
    else
      let fs2 := assocSet fs1 tmp_path body
      if fault = .syncFails then (assocRemove fs2 tmp_path, .error ())
      else if fault = .renameFails then (fs2, .error ())
      else (assocSet (assocRemove fs2 tmp_path) final_path body, .ok ())

/-- C2 counterexample: when the payload write fails,
`Spool::enqueue_mail` returns the error but leaves the freshly created
`{id}.eml.tmp` file in `incoming/` — a new file remains, contradicting
the claim that any failing step removes the temp file before the error
is returned. -/
theorem spool_enqueue_mail_leaves_temp_on_write_failure :
    Spool.enqueue_mail [] "u".data [49] .writeFails =
      ([("u.eml.tmp".data, [])], .error ()) ∧
    (([("u.eml.tmp".data, [])] : FileSys) ≠ []) := by
  exact ⟨rfl, by decide⟩

/-- C2 amended: on success `Spool::enqueue_mail` leaves `{id}.eml`
holding exactly the payload; on failure the error is returned and no
file other than the `{id}.eml.tmp` temp file is created or changed (in
particular no partial `.eml` file appears), but the temp file itself is
not removed.  `write_temp_and_rename` from the delivery hook does
remove the temp file on write and fsync failures. -/
theorem spool_enqueue_mail_amended (fs : FileSys) (id : RStr)
    (payload : List Nat) (fault : IoFault) :
    (∀ path, (Spool.enqueue_mail fs id payload fault).2 = .ok path →
      path = id ++ ".eml".data ∧
      assocGet (Spool.enqueue_mail fs id payload fault).1 path =
        some payload) ∧
    ((Spool.enqueue_mail fs id payload fault).2 = .error () →
      ∀ name, name ≠ id ++ ".eml.tmp".data →
        assocGet (Spool.enqueue_mail fs id payload fault).1 name =
          assocGet fs name) ∧
    (∀ tmp fin body, assocGet fs tmp = none →
      (write_temp_and_rename fs tmp fin body .writeFails).1 = fs ∧
      (write_temp_and_rename fs tmp fin body .syncFails).1 = fs) := by
  refine ⟨?_, ?_, ?_⟩
  · intro path hok
    cases fault with
    | noFault =>
      have hpath : path = id ++ ".eml".data := by
        have : Except.ok (ε := Unit) (id ++ ".eml".data) = .ok path := hok
        cases this
        rfl
      subst hpath
      refine ⟨rfl, ?_⟩
      show assocGet (assocSet
        (assocRemove
          (assocSet (assocSet fs (id ++ ".eml.tmp".data) [])
            (id ++ ".eml.tmp".data) payload) (id ++ ".eml.tmp".data))
        (id ++ ".eml".data) payload) (id ++ ".eml".data) = some payload
      exact assocGet_set_self _ _ _
    | createFails => simp [Spool.enqueue_mail] at hok
    | writeFails => simp [Spool.enqueue_mail] at hok
    | syncFails => simp [Spool.enqueue_mail] at hok
    | renameFails => simp [Spool.enqueue_mail] at hok
  · intro herr name hname
    cases fault with
    | noFault => simp [Spool.enqueue_mail] at herr
    | createFails => simp [Spool.enqueue_mail]
    | writeFails =>
      show assocGet (assocSet fs (id ++ ".eml.tmp".data) []) name =
        assocGet fs name
      exact assocGet_set_ne _ _ _ _ hname
    | syncFails =>
      show assocGet (assocSet (assocSet fs (id ++ ".eml.tmp".data) [])
        (id ++ ".eml.tmp".data) payload) name = assocGet fs name
      rw [assocGet_set_ne _ _ _ _ hname, assocGet_set_ne _ _ _ _ hname]
    | renameFails =>
      show assocGet (assocSet (assocSet fs (id ++ ".eml.tmp".data) [])
        (id ++ ".eml.tmp".data) payload) name = assocGet fs name
      rw [assocGet_set_ne _ _ _ _ hname, assocGet_set_ne _ _ _ _ hname]
  · intro tmp fin body hnone
    constructor
    · simp [write_temp_and_rename, assocRemove_set,
        assocRemove_of_get_none fs tmp hnone]
    · simp [write_temp_and_rename, assocRemove_set,
        assocRemove_of_get_none fs tmp hnone]

/-- Witness for the amended C2 theorem at a concrete enqueue. -/
theorem spool_enqueue_mail_amended_witness :
    "w".data ++ ".eml".data = "w".data ++ ".eml".data ∧
    assocGet (Spool.enqueue_mail [] "w".data [7, 8] .noFault).1
      ("w".data ++ ".eml".data) = some [7, 8] :=
  (spool_enqueue_mail_amended [] "w".data [7, 8] .noFault).1
    ("w".data ++ ".eml".data) rfl

end Bouncer

/-! ## C5: orphan-bounce policy (`database.rs::Database::upsert_bounce`) -/

namespace Bouncer

/-- A `mail_messages` row (the columns the core touches; `updated_at`
is abstracted away since `NOW()` only refreshes it). -/
structure MailMessageRow where
  id : Nat
  hash : RStr
  status : Int
deriving DecidableEq

/-- A `mail_message_bounces` row (`created_at` abstracted away). -/
structure MailMessageBounceRow where
  message_id : Nat
  action : Option RStr
  status_code : RStr
  description : Option RStr
deriving DecidableEq

/-- A `mail_bounces` row (`created_at` abstracted away). -/
structure MailBounceRow where
  hash : RStr
  recipient : Option RStr
  action : Option RStr
  status_code : RStr
  description : Option RStr
deriving DecidableEq

/-- The three tables `upsert_bounce` touches. -/
structure DbState where
  mail_messages : List MailMessageRow
  mail_message_bounces : List MailMessageBounceRow
  mail_bounces : List MailBounceRow
deriving DecidableEq

/-- `UpsertBounceOutcome` from `database.rs`. -/
inductive UpsertBounceOutcome where
  | UpdatedLocalMessage
  | MissingLocalMessage
deriving DecidableEq

/-- `Database::upsert_bounce` from `database.rs`, with the SQL embedded
as list operations in one transaction: `SELECT id … WHERE hash = ?
LIMIT 1` is a first-match lookup, `UPDATE … WHERE` updates every
matching row, `INSERT` appends, and `SELECT 1 … LIMIT 1` is an
existence check.  `NOW()` timestamps are abstracted away. -/
def upsert_bounce (db : DbState) (parsed : ParsedBounce) :
    DbState × UpsertBounceOutcome :=
  match (db.mail_messages.find? (fun r => r.hash == parsed.hash)).map
      (fun r => r.id) with
  | some message_id =>
    let message_status := map_mail_message_status parsed
    let db1 := { db with
      mail_messages := db.mail_messages.map (fun r =>
        if r.hash == parsed.hash then { r with status := message_status }
        else r) }
    let db2 :=
      if message_status ≠ MAIL_STATUS_SUCCESS then
        if db1.mail_message_bounces.any
            (fun b => b.message_id == message_id) then
          { db1 with
            mail_message_bounces := db1.mail_message_bounces.map (fun b =>
              if b.message_id == message_id then
                { b with
                  action := parsed.action
                  status_code := parsed.status_code
                  description := parsed.description }
              else b) }
        else
          { db1 with
            mail_message_bounces := db1.mail_message_bounces ++
              [⟨message_id, parsed.action, parsed.status_code,
                parsed.description⟩] }
      else db1
    (db2, .UpdatedLocalMessage)
  | none =>
    let message_status := map_mail_message_status parsed
    if message_status = MAIL_STATUS_SUCCESS then
      (db, .MissingLocalMessage)
    else
      let db2 :=
        if db.mail_bounces.any (fun b => b.hash == parsed.hash) then
          { db with
            mail_bounces := db.mail_bounces.map (fun b =>
              if b.hash == parsed.hash then
                { b with
                  recipient := parsed.recipient
                  action := parsed.action
                  status_code := parsed.status_code
                  description := parsed.description }
              else b) }
        else
          { db with
            mail_bounces := db.mail_bounces ++
              [⟨parsed.hash, parsed.recipient, parsed.action,
                parsed.status_code, parsed.description⟩] }
      (db2, .MissingLocalMessage)

/-- C5: orphan-bounce policy.  When the hash matches no `mail_messages`
row: a `SUCCESS`-mapped bounce leaves the database untouched and
returns `MissingLocalMessage` (no orphan for success outcomes); any
other mapped status returns `MissingLocalMessage` after upserting
exactly one `mail_bounces` row keyed by the hash (update if present,
insert otherwise) and touching no other table.  When a linked message
is found the call returns `UpdatedLocalMessage`. -/
theorem upsert_bounce_orphan_policy (db : DbState) (parsed : ParsedBounce) :
    ((db.mail_messages.find? (fun r => r.hash == parsed.hash) = none ∧
      map_mail_message_status parsed = MAIL_STATUS_SUCCESS) →
      upsert_bounce db parsed = (db, .MissingLocalMessage)) ∧
    ((db.mail_messages.find? (fun r => r.hash == parsed.hash) = none ∧
      map_mail_message_status parsed ≠ MAIL_STATUS_SUCCESS) →
      (upsert_bounce db parsed).2 = .MissingLocalMessage ∧
      (upsert_bounce db parsed).1.mail_messages = db.mail_messages ∧
      (upsert_bounce db parsed).1.mail_message_bounces =
        db.mail_message_bounces ∧
      ((db.mail_bounces.any (fun b => b.hash == parsed.hash) = true →
        (upsert_bounce db parsed).1.mail_bounces =
          db.mail_bounces.map (fun b =>
            if b.hash == parsed.hash then
              { b with
                recipient := parsed.recipient
                action := parsed.action
                status_code := parsed.status_code
                description := parsed.description }
            else b)) ∧
      (db.mail_bounces.any (fun b => b.hash == parsed.hash) = false →
        (upsert_bounce db parsed).1.mail_bounces =
          db.mail_bounces ++
            [⟨parsed.hash, parsed.recipient, parsed.action,
              parsed.status_code, parsed.description⟩]))) ∧
    (∀ row, db.mail_messages.find? (fun r => r.hash == parsed.hash) =
        some row →
      (upsert_bounce db parsed).2 = .UpdatedLocalMessage) := by
  refine ⟨?_, ?_, ?_⟩
  · rintro ⟨hfind, hstatus⟩
    simp [upsert_bounce, hfind, hstatus]
  · rintro ⟨hfind, hstatus⟩
    have hmain : upsert_bounce db parsed =
        ({ db with mail_bounces :=
            if db.mail_bounces.any (fun b => b.hash == parsed.hash) then
              db.mail_bounces.map (fun b =>
                if b.hash == parsed.hash then
                  { b with
                    recipient := parsed.recipient
                    action := parsed.action
                    status_code := parsed.status_code
                    description := parsed.description }
                else b)
            else
              db.mail_bounces ++
                [⟨parsed.hash, parsed.recipient, parsed.action,
                  parsed.status_code, parsed.description⟩] },
          .MissingLocalMessage) := by
      simp only [upsert_bounce, hfind, Option.map_none']
      rw [if_neg hstatus]
      by_cases hany : db.mail_bounces.any (fun b => b.hash == parsed.hash)
      · rw [if_pos hany, if_pos hany]
      · rw [if_neg hany, if_neg hany]
    refine ⟨?_, ?_, ?_, ?_, ?_⟩
    · rw [hmain]
    · rw [hmain]
    · rw [hmain]
    · intro hany
      rw [hmain]
      exact if_pos hany
    · intro hany
      rw [hmain]
      exact if_neg (by simp [hany])
  · intro row hfind
    simp [upsert_bounce, hfind]

/-- Witness for C5 at a concrete orphan bounce with a non-success
status. -/
theorem upsert_bounce_orphan_policy_witness :
    (upsert_bounce ⟨[], [], []⟩
        ⟨"h".data, "5.0.0".data, none, none, none⟩).2 =
      .MissingLocalMessage ∧
    (upsert_bounce ⟨[], [], []⟩
        ⟨"h".data, "5.0.0".data, none, none, none⟩).1.mail_messages = [] ∧
    (upsert_bounce ⟨[], [], []⟩
        ⟨"h".data, "5.0.0".data, none, none, none⟩).1.mail_message_bounces =
      [] ∧
    (([] : List MailBounceRow).any
        (fun b => b.hash == "h".data) = true →
      (upsert_bounce ⟨[], [], []⟩
          ⟨"h".data, "5.0.0".data, none, none, none⟩).1.mail_bounces =
        ([] : List MailBounceRow).map (fun b =>
          if b.hash == "h".data then
            { b with
              recipient := none
              action := none
              status_code := "5.0.0".data
              description := none }
          else b)) ∧
    (([] : List MailBounceRow).any
        (fun b => b.hash == "h".data) = false →
      (upsert_bounce ⟨[], [], []⟩
          ⟨"h".data, "5.0.0".data, none, none, none⟩).1.mail_bounces =
        [] ++ [⟨"h".data, none, none, "5.0.0".data, none⟩]) :=
  (upsert_bounce_orphan_policy ⟨[], [], []⟩
      ⟨"h".data, "5.0.0".data, none, none, none⟩).2.1
    ⟨rfl, by decide⟩

end Bouncer

/-! ## C6: IMAP mark-seen policy (`imap.rs`) -/

namespace Bouncer

/-- IMAP message UID. -/
abbrev Uid := Nat

/-- `ParserError` from `parser.rs`. -/
inductive ParserError where
  | NotDeliveryReport
  | MissingHash
  | MissingStatusCode
deriving DecidableEq

/-- `ParserError::code` from `parser.rs`. -/
def ParserError.code : ParserError → RStr
  | .NotDeliveryReport => "NOT_DELIVERY_REPORT".data
  | .MissingHash => "MISSING_HASH".data
  | .MissingStatusCode => "MISSING_STATUS_CODE".data

/-- The `fmt::Display` text of `ParserError` from `parser.rs`. -/
def ParserError.displayText : ParserError → RStr
  | .NotDeliveryReport =>
    "message does not look like a delivery status report".data
  | .MissingHash =>
    "bounce hash not found (X-Message-Id/Message-ID)".data
  | .MissingStatusCode => "status code not found".data

/-- `ProcessResult` from `imap.rs`. -/
inductive ProcessResult where
  | Processed (uid : Uid)
  | MissingInDb (uid : Uid) (hash : RStr) (mark_seen : Bool)
  | IgnoredNotDelivery (uid : Uid)
  | IgnoredMissingHash (uid : Uid)
  | ParseFailed (uid : Uid) (code : RStr) (message : RStr)
  | DbFailed (uid : Uid) (hash : RStr) (message : RStr)
deriving DecidableEq

/-- `process_fetched_message` from `imap.rs`.  The parser call and the
database call are abstracted as the `parseResult` / `dbResult` oracles
(the database is only consulted when parsing succeeded, which the
shape of the definition preserves). -/
def process_fetched_message (uid : Uid)
    (parseResult : Except ParserError ParsedBounce)
    (dbResult : Except RStr UpsertBounceOutcome)
    (mark_seen_if_not_exist : Bool) : ProcessResult :=
  match parseResult with
  | .error .NotDeliveryReport => .IgnoredNotDelivery uid
  | .error .MissingHash => .IgnoredMissingHash uid
  | .error err => .ParseFailed uid err.code err.displayText
  | .ok parsed =>
    match dbResult with
    | .ok .UpdatedLocalMessage => .Processed uid
    | .ok .MissingLocalMessage =>
      .MissingInDb uid parsed.hash mark_seen_if_not_exist
    | .error e => .DbFailed uid parsed.hash e

/-- Mutable state threaded through `collect_one_process_result` in
`imap.rs` (the counters and the two UID lists). -/
structure CollectState where
  processed_uids : List Uid
  seen_uids : List Uid
  parse_failures : Nat
  ignored_not_delivery : Nat
  ignored_missing_hash : Nat
  db_failures : Nat
  missing_in_db : Nat
deriving DecidableEq

/-- The initial collection state of `run_imap_poll_once`. -/
def initialCollectState : CollectState :=
  ⟨[], [], 0, 0, 0, 0, 0⟩

/-- `collect_one_process_result` from `imap.rs`, for one joined task
result (task-join failures touch none of this state and are omitted). -/
def collect_one_process_result (st : CollectState) (r : ProcessResult) :
    CollectState :=
  match r with
  | .Processed uid =>
    { st with
      processed_uids := st.processed_uids ++ [uid]
      seen_uids := st.seen_uids ++ [uid] }
  | .MissingInDb uid _ mark_seen =>
    { st with
      missing_in_db := st.missing_in_db + 1
      seen_uids := if mark_seen then st.seen_uids ++ [uid] else st.seen_uids }
  | .IgnoredNotDelivery uid =>
    { st with
      parse_failures := st.parse_failures + 1
      ignored_not_delivery := st.ignored_not_delivery + 1
      seen_uids := st.seen_uids ++ [uid] }
  | .IgnoredMissingHash uid =>
    { st with
      parse_failures := st.parse_failures + 1
      ignored_missing_hash := st.ignored_missing_hash + 1
      seen_uids := st.seen_uids ++ [uid] }
  | .ParseFailed _ _ _ => { st with parse_failures := st.parse_failures + 1 }
  | .DbFailed _ _ _ => { st with db_failures := st.db_failures + 1 }

/-- Folding `collect_one_process_result` over every joined result of a
poll iteration, as the `while !processing.is_empty()` loop does. -/
def collectResults (st : CollectState) (rs : List ProcessResult) :
    CollectState :=
  rs.foldl collect_one_process_result st

/-- The UID of a process result. -/
def ProcessResult.uid : ProcessResult → Uid
  | .Processed uid => uid
  | .MissingInDb uid _ _ => uid
  | .IgnoredNotDelivery uid => uid
  | .IgnoredMissingHash uid => uid
  | .ParseFailed uid _ _ => uid
  | .DbFailed uid _ _ => uid

/-- The mark-seen condition exactly as the claim states it: outcome is
`Processed`, `IgnoredNotDelivery`, `IgnoredMissingHash`, or
`MissingInDb` carrying `mark_seen = true`. -/
def claimMarkSeen : ProcessResult → Bool
  | .Processed _ => true
  | .MissingInDb _ _ mark_seen => mark_seen
  | .IgnoredNotDelivery _ => true
  | .IgnoredMissingHash _ => true
  | .ParseFailed _ _ _ => false
  | .DbFailed _ _ _ => false

theorem collectResults_seen_uids (st : CollectState)
    (rs : List ProcessResult) :
    (collectResults st rs).seen_uids =
      st.seen_uids ++ (rs.filter claimMarkSeen).map ProcessResult.uid := by
  induction rs generalizing st with
  | nil => simp [collectResults]
  | cons r rest ih =>
    have step : collectResults st (r :: rest) =
        collectResults (collect_one_process_result st r) rest := rfl
    rw [step, ih]
    cases r with
    | Processed uid =>
      simp [collect_one_process_result, claimMarkSeen, List.filter,
        ProcessResult.uid]
    | MissingInDb uid hash mark_seen =>
      cases mark_seen <;>
        simp [collect_one_process_result, claimMarkSeen, List.filter,
          ProcessResult.uid]
    | IgnoredNotDelivery uid =>
      simp [collect_one_process_result, claimMarkSeen, List.filter,
        ProcessResult.uid]
    | IgnoredMissingHash uid =>
      simp [collect_one_process_result, claimMarkSeen, List.filter,
        ProcessResult.uid]
    | ParseFailed uid code message =>
      simp [collect_one_process_result, claimMarkSeen, List.filter]
    | DbFailed uid hash message =>
      simp [collect_one_process_result, claimMarkSeen, List.filter]

/-- C6: the set sent to `UID STORE +FLAGS (\Seen)` is exactly the UIDs
whose outcome is `Processed`, `IgnoredNotDelivery`,
`IgnoredMissingHash`, or `MissingInDb` with the flag true; moreover a
`MissingStatusCode` parse error yields `ParseFailed` (never marked
seen) and a `MissingLocalMessage` upsert yields `MissingInDb` carrying
exactly the configured `mark_seen_if_not_exist` flag. -/
theorem imap_mark_seen_policy :
    (∀ rs : List ProcessResult,
      (collectResults initialCollectState rs).seen_uids =
        (rs.filter claimMarkSeen).map ProcessResult.uid) ∧
    (∀ (uid : Uid) (dbResult : Except RStr UpsertBounceOutcome) (flag : Bool),
      process_fetched_message uid (.error .MissingStatusCode) dbResult flag =
        .ParseFailed uid "MISSING_STATUS_CODE".data
          "status code not found".data ∧
      claimMarkSeen
        (process_fetched_message uid (.error .MissingStatusCode) dbResult
          flag) = false) ∧
    (∀ (uid : Uid) (p : ParsedBounce) (flag : Bool),
      process_fetched_message uid (.ok p) (.ok .MissingLocalMessage) flag =
        .MissingInDb uid p.hash flag) := by
  refine ⟨?_, ?_, ?_⟩
  · intro rs
    simpa [initialCollectState] using
      collectResults_seen_uids initialCollectState rs
  · intro uid dbResult flag
    exact ⟨rfl, rfl⟩
  · intro uid p flag
    rfl

end Bouncer

/-! ## C7/C9: observer log parsing and correlation
(`bouncer-observer/src/core/parser.rs`, `udp_listener.rs`) -/

namespace Bouncer

/-- UTF-8 byte length of one Unicode scalar value. -/
def utf8Len (c : Char) : Nat :=
  if c.toNat < 0x80 then 1
  else if c.toNat < 0x800 then 2
  else if c.toNat < 0x10000 then 3
  else 4

/-- Rust `str::len`: the UTF-8 byte length. -/
def byteLen (s : RStr) : Nat :=
  (s.map utf8Len).sum

/-- Helper of `rustTruncate`: the prefix holding exactly `m` UTF-8
bytes, or `none` when `m` falls inside a character. -/
def truncGo : RStr → Nat → Option RStr
  | _, 0 => some []
  | [], _ + 1 => none
  | c :: rest, m + 1 =>
    if utf8Len c ≤ m + 1 then (truncGo rest (m + 1 - utf8Len c)).map (c :: ·)
    else none

/-- Rust `String::truncate(new_len)`: a no-op when `new_len` is at
least the byte length; otherwise shortens to `new_len` bytes when that
is a char boundary and PANICS when it is not.  The panic is modelled as
`none`. -/
def rustTruncate (s : RStr) (new_len : Nat) : Option RStr :=
  if byteLen s ≤ new_len then some s else truncGo s new_len

namespace Observer

/-- `MAX_DIAGNOSTIC_LEN` from the observer `parser.rs`. -/
def MAX_DIAGNOSTIC_LEN : Nat := 512

/-- `RELAY_HANDOFF_HOSTS` from the observer `parser.rs`. -/
def RELAY_HANDOFF_HOSTS : List RStr :=
  ["mxbg.nxmango.com".data]

/-- The whitespace-collapsing loop of `build_diagnostic` (the `for ch
in detail.chars()` loop with its `prev_space` flag). -/
def collapseWhitespaceGo : Bool → RStr → RStr
  | _, [] => []
  | prev_space, ch :: rest =>
    if isRustWhitespace ch then
      if prev_space then collapseWhitespaceGo true rest
      else ' ' :: collapseWhitespaceGo true rest
    else ch :: collapseWhitespaceGo false rest

/-- `build_diagnostic` from the observer `parser.rs`: collapse
whitespace, trim, prepend the queue id, then `String::truncate` to 512
bytes.  The result is `none` exactly when `truncate` panics (512th byte
inside a multi-byte character). -/
def build_diagnostic (queue_id detail : RStr) : Option RStr :=
  let collapsed := rustTrim (collapseWhitespaceGo false detail)
  let diagnostic := "queue_id=".data ++ queue_id ++ "; ".data ++ collapsed
  rustTruncate diagnostic MAX_DIAGNOSTIC_LEN

/-- `is_queue_id` from the observer `parser.rs`. -/
def is_queue_id (queue_id : RStr) : Bool :=
  (!(queue_id == [])) && decide (queue_id.length ≤ 32) &&
    queue_id.all (fun c => c.isAlphanum)

/-- `normalize_message_hash` from the observer `parser.rs`: keep the
ASCII-alphanumeric chars of the local part and accept exactly 32 of
them. -/
def normalize_message_hash (value : RStr) : Option RStr :=
  let trimmed := trimMatchesPred (fun c => c == '<' || c == '>')
    (rustTrim value)
  let local_part := rustTrim
    ((splitOnPred (fun c => c == '@') trimmed).headD [])
  let hash := local_part.filter (fun c => c.isAlphanum)
  if hash.length == 32 then some hash else none

/-- `extract_between` from the observer `parser.rs`. -/
def extract_between (text start fin : RStr) : Option RStr :=
  match findSubstrIdx start text with
  | none => none
  | some i =>
    let rem := text.drop (i + start.length)
    match findSubstrIdx fin rem with
    | none => none
    | some j => some (rustTrim (rem.take j))

/-- `extract_token` from the observer `parser.rs`: longest run of
`[A-Za-z0-9._-]` after the key. -/
def extract_token (text key : RStr) : Option RStr :=
  match findSubstrIdx key text with
  | none => none
  | some i =>
    let rem := text.drop (i + key.length)
    let token := rem.takeWhile (fun c =>
      c.isAlphanum || c == '.' || c == '_' || c == '-')
    if token == [] then none else some (rustTrim token)

/-- `map_action` from the observer `parser.rs`. -/
def map_action (smtp_status : RStr) (relay_handoff : Bool) : RStr :=
  if smtp_status == "sent".data && relay_handoff then "delayed".data
  else if smtp_status == "sent".data then "delivered".data
  else if smtp_status == "deferred".data then "delayed".data
  else if smtp_status == "bounced".data ||
      smtp_status == "expired".data then "failed".data
  else "failed".data

/-- `default_status_code` from the observer `parser.rs`. -/
def default_status_code (smtp_status : RStr) (relay_handoff : Bool) : RStr :=
  if smtp_status == "sent".data && relay_handoff then "4.0.0".data
  else if smtp_status == "sent".data then "2.0.0".data
  else if smtp_status == "deferred".data then "4.0.0".data
  else if smtp_status == "bounced".data ||
      smtp_status == "expired".data then "5.0.0".data
  else "5.0.0".data

/-- `extract_relay_host` from the observer `parser.rs`. -/
def extract_relay_host (detail : RStr) : Option RStr :=
  match findSubstrIdx "relay=".data detail with
  | none => none
  | some i =>
    let rem := detail.drop (i + "relay=".data.length)
    let endIdx := (rem.findIdx? (fun c =>
      c == '[' || c == ':' || c == ',' || isRustWhitespace c)).getD rem.length
    let host := toAsciiLower (rustTrim (rem.take endIdx))
    if host == [] then none else some host

/-- `is_relay_handoff_host` from the observer `parser.rs`. -/
def is_relay_handoff_host (host : RStr) : Bool :=
  RELAY_HANDOFF_HOSTS.any (fun relay => eqIgnoreAsciiCase host relay)

/-- `SmtpEvent` from the observer `types.rs`. -/
structure SmtpEvent where
  queue_id : RStr
  recipient : RStr
  smtp_status : RStr
  status_code : RStr
  action : RStr
  diagnostic : RStr
deriving DecidableEq

/-- `QueueEntry` from the observer `types.rs`; the monotonic
`Instant` is modelled as a `Nat` tick. -/
structure QueueEntry where
  hash : RStr
  updated_at : Nat
deriving DecidableEq

/-- `DeliveryEvent` from the observer `types.rs`. -/
structure DeliveryEvent where
  hash : RStr
  queue_id : RStr
  recipient : RStr
  status_code : RStr
  action : RStr
  diagnostic : RStr
  smtp_status : RStr
deriving DecidableEq

/-- `ParsedSyslog` from the observer `types.rs`. -/
inductive ParsedSyslog where
  | Cleanup (queue_id hash : RStr)
  | Smtp (event : SmtpEvent)
deriving DecidableEq

/-- `parse_cleanup_message` from the observer `parser.rs`. -/
def parse_cleanup_message (message : RStr) : Option (RStr × RStr) :=
  match splitOnceStr ": ".data message with
  | none => none
  | some (queue_id, detail) =>
    if ¬ is_queue_id queue_id then none
    else
      match findSubstrIdx "message-id=<".data detail with
      | none => none
      | some i =>
        let tail := detail.drop (i + "message-id=<".data.length)
        match tail.findIdx? (fun c => c == '>') with
        | none => none
        | some endIdx =>
          (normalize_message_hash (tail.take endIdx)).map
            (fun hash => (queue_id, hash))

/-- `parse_smtp_message` from the observer `parser.rs`.  A
`build_diagnostic` panic (see `rustTruncate`) is surfaced as `none`
here, since a Rust panic aborts the surrounding task. -/
def parse_smtp_message (message : RStr) : Option SmtpEvent :=
  match splitOnceStr ": ".data message with
  | none => none
  | some (queue_id, detail) =>
    if ¬ is_queue_id queue_id then none
    else
      match extract_between detail "to=<".data ">".data with
      | none => none
      | some recipient =>
        match extract_token detail "status=".data with
        | none => none
        | some status_token =>
          let smtp_status := toAsciiLower status_token
          let relay_handoff :=
            ((extract_relay_host detail).map is_relay_handoff_host).getD false
          let default_status := default_status_code smtp_status relay_handoff
          let status_code :=
            (extract_token detail "dsn=".data).getD default_status
          let action := map_action smtp_status relay_handoff
          match build_diagnostic queue_id detail with
          | none => none
          | some diagnostic =>
            some ⟨queue_id, recipient, smtp_status, status_code, action,
              diagnostic⟩

/-- `parse_postfix_line` from the observer `parser.rs`. -/
def parse_postfix_line (line : RStr) : Option ParsedSyslog :=
  if ¬ containsSubstr line "postfix/".data then none
  else
    match splitOnceStr "postfix/".data line with
    | none => none
    | some (_, rest) =>
      match splitOnceChar '[' rest with
      | none => none
      | some (service_raw, rest2) =>
        match splitOnceStr "]: ".data rest2 with
        | none => none
        | some (_, message) =>
          let service :=
            (splitOnPred (fun c => c == '/') service_raw).getLastD service_raw
          if eqIgnoreAsciiCase service "cleanup".data then
            (parse_cleanup_message message).map
              (fun p => ParsedSyslog.Cleanup p.1 p.2)
          else if eqIgnoreAsciiCase service "smtp".data then
            (parse_smtp_message message).map ParsedSyslog.Smtp
          else none

/-- The per-line state transition of `run_udp_listener` from
`udp_listener.rs`: the `queue_id → QueueEntry` map together with the
list of delivery events handed to `try_send` for this line.
`Instant::now()` is the `now` parameter; channel back-pressure and the
TTL pruning tick are outside this per-line step. -/
def listener_step (queue_map : List (RStr × QueueEntry)) (now : Nat)
    (parsed : ParsedSyslog) :
    List (RStr × QueueEntry) × List DeliveryEvent :=
  match parsed with
  | .Cleanup queue_id hash =>
    (assocSet queue_map queue_id ⟨hash, now⟩, [])
  | .Smtp smtp =>
    match assocGet queue_map smtp.queue_id with
    | none => (queue_map, [])
    | some entry =>
      (assocSet queue_map smtp.queue_id { entry with updated_at := now },
        [⟨entry.hash, smtp.queue_id, smtp.recipient, smtp.status_code,
          smtp.action, smtp.diagnostic, smtp.smtp_status⟩])

end Observer

end Bouncer

namespace Bouncer

theorem observer_normalize_hash_length (v h : RStr)
    (hh : Observer.normalize_message_hash v = some h) : h.length = 32 := by
  simp only [Observer.normalize_message_hash,
    Option.ite_none_right_eq_some] at hh
  rcases hh with ⟨hlen, hEq⟩
  cases hEq
  simpa using hlen

theorem parse_cleanup_message_shape (message q hsh : RStr)
    (h : Observer.parse_cleanup_message message = some (q, hsh)) :
    Observer.is_queue_id q = true ∧ hsh.length = 32 := by
  simp only [Observer.parse_cleanup_message] at h
  rcases e1 : splitOnceStr ": ".data message with _ | ⟨queue_id, detail⟩
  · simp only [e1] at h
    simp at h
  · simp only [e1] at h
    by_cases hiq : Observer.is_queue_id queue_id = true
    · rw [if_neg (not_not_intro hiq)] at h
      rcases e2 : findSubstrIdx "message-id=<".data detail with _ | i
      · simp only [e2] at h
        simp at h
      · simp only [e2] at h
        rcases e3 : List.findIdx? (fun c => c == '>')
            (detail.drop (i + "message-id=<".data.length)) with _ | endIdx
        · simp only [e3] at h
          simp at h
        · simp only [e3] at h
          rcases Option.map_eq_some'.mp h with ⟨hsh', hn, hEq⟩
          injection hEq with hq1 hq2
          subst hq1
          subst hq2
          exact ⟨hiq, observer_normalize_hash_length _ _ hn⟩
    · rw [if_pos hiq] at h
      simp at h

/-- C7: observer two-stage correlation.  An `smtp` line whose queue id
is absent from the map emits no event and leaves the map unchanged; a
`cleanup` line for queue id `Q` followed by an `smtp` line for the same
`Q` emits exactly one `DeliveryEvent`, whose hash is the cleanup's hash
and whose remaining fields come from the smtp parse; and any line the
parser turns into a `Cleanup` carries a valid queue id and a
32-character hash. -/
theorem observer_two_stage_correlation :
    (∀ (m : List (RStr × Observer.QueueEntry)) (now : Nat)
        (smtp : Observer.SmtpEvent),
      assocGet m smtp.queue_id = none →
      Observer.listener_step m now (.Smtp smtp) = (m, [])) ∧
    (∀ (m : List (RStr × Observer.QueueEntry)) (t1 t2 : Nat)
        (qid hash : RStr) (smtp : Observer.SmtpEvent),
      smtp.queue_id = qid →
      (Observer.listener_step m t1 (.Cleanup qid hash)).2 = [] ∧
      (Observer.listener_step
          (Observer.listener_step m t1 (.Cleanup qid hash)).1 t2
          (.Smtp smtp)).2 =
        [⟨hash, qid, smtp.recipient, smtp.status_code, smtp.action,
          smtp.diagnostic, smtp.smtp_status⟩]) ∧
    (∀ (line : RStr) (qid hash : RStr),
      Observer.parse_postfix_line line = some (.Cleanup qid hash) →
      Observer.is_queue_id qid = true ∧ hash.length = 32) := by
  refine ⟨?_, ?_, ?_⟩
  · intro m now smtp hnone
    simp [Observer.listener_step, hnone]
  · intro m t1 t2 qid hash smtp hq
    refine ⟨rfl, ?_⟩
    simp [Observer.listener_step, hq, assocGet_set_self]
  · intro line qid hash h
    simp only [Observer.parse_postfix_line] at h
    by_cases hc : containsSubstr line "postfix/".data = true
    · rw [if_neg (not_not_intro hc)] at h
      rcases e1 : splitOnceStr "postfix/".data line with _ | ⟨pre, rest⟩
      · simp only [e1] at h
        simp at h
      · simp only [e1] at h
        rcases e2 : splitOnceChar '[' rest with _ | ⟨service_raw, rest2⟩
        · simp only [e2] at h
          simp at h
        · simp only [e2] at h
          rcases e3 : splitOnceStr "]: ".data rest2 with _ | ⟨pre2, message⟩
          · simp only [e3] at h
            simp at h
          · simp only [e3] at h
            by_cases hcl : eqIgnoreAsciiCase
                ((splitOnPred (fun c => c == '/') service_raw).getLastD
                  service_raw) "cleanup".data = true
            · rw [if_pos hcl] at h
              rcases Option.map_eq_some'.mp h with ⟨p, hp, hEq⟩
              rcases p with ⟨pq, ph⟩
              injection hEq with h1 h2
              subst h1
              subst h2
              exact parse_cleanup_message_shape _ _ _ hp
            · rw [if_neg hcl] at h
              by_cases hsm : eqIgnoreAsciiCase
                  ((splitOnPred (fun c => c == '/') service_raw).getLastD
                    service_raw) "smtp".data = true
              · rw [if_pos hsm] at h
                rcases Option.map_eq_some'.mp h with ⟨e, _, hEq⟩
                exact absurd hEq (by simp)
              · rw [if_neg hsm] at h
                simp at h
    · rw [if_pos hc] at h
      simp at h

/-- Witness for C7: a concrete cleanup line parses to a `Cleanup` with
a valid queue id and 32-char hash, and a concrete smtp event with an
unknown queue id emits nothing. -/
theorem observer_two_stage_correlation_witness :
    (Observer.is_queue_id "ABC123".data = true ∧
      ("aaaaaaaaaaaaaaaaaaaaaaaaaaaaaaaa".data).length = 32) ∧
    Observer.listener_step [] 5
        (.Smtp ⟨"Q1".data, "u@d".data, "bounced".data, "5.1.1".data,
          "failed".data, "diag".data⟩) = ([], []) :=
  ⟨observer_two_stage_correlation.2.2
      "Oct 12 host postfix/cleanup[123]: ABC123: message-id=<aaaaaaaaaaaaaaaaaaaaaaaaaaaaaaaa@x>".data
      "ABC123".data "aaaaaaaaaaaaaaaaaaaaaaaaaaaaaaaa".data rfl,
    observer_two_stage_correlation.1 [] 5
      ⟨"Q1".data, "u@d".data, "bounced".data, "5.1.1".data, "failed".data,
        "diag".data⟩ rfl⟩

end Bouncer

namespace Bouncer

/-- C9: `build_diagnostic` is NOT total.  For `queue_id = "A"` and a
detail of 499 ASCII chars followed by `é`, the untruncated diagnostic
is 513 bytes and the 512-byte cut point falls inside the two-byte `é`,
so `String::truncate(512)` panics (modelled as `none`); the same input
with two ASCII chars in place of `é` truncates fine. -/
theorem build_diagnostic_panics_on_multibyte_cut :
    Observer.build_diagnostic "A".data
        (List.replicate 499 'a' ++ ['é']) = none ∧
    (Observer.build_diagnostic "A".data
        (List.replicate 499 'a' ++ ['b', 'c'])).isSome = true ∧
    byteLen ("queue_id=".data ++ "A".data ++ "; ".data ++
        (List.replicate 499 'a' ++ ['é'])) = 513 := by
  set_option maxRecDepth 10000 in
  refine ⟨by decide, by decide, by decide⟩

end Bouncer

/-! ## C8: dispatcher visibility (`dispatcher.rs::is_eml_file`) -/

namespace Bouncer

/-- Index of the last element satisfying `p`. -/
def findLastIdx (p : Char → Bool) : RStr → Option Nat
  | [] => none
  | c :: rest =>
    match findLastIdx p rest with
    | some i => some (i + 1)
    | none => if p c then some 0 else none

/-- Rust `Path::file_name`: the component after the last `/` (`none`
when that component is empty or `..`; the `.`-component normalization
of `Path` is irrelevant to the dispatcher's inputs). -/
def rustFileName (path : RStr) : Option RStr :=
  let name := (splitOnPred (fun c => c == '/') path).getLastD []
  if name == [] || name == "..".data then none else some name

/-- Rust `Path::extension`: the part of the file name after the last
`.`, where a `.` at index 0 does not count (so `.eml` has no
extension but `.hidden.eml` has extension `eml`). -/
def rustExtension (path : RStr) : Option RStr :=
  match rustFileName path with
  | none => none
  | some name =>
    match name with
    | [] => none
    | _ :: rest =>
      (findLastIdx (fun c => c == '.') rest).map (fun i => rest.drop (i + 1))

/-- `is_eml_file` from `dispatcher.rs`:
`path.extension().and_then(|ext| ext.to_str()) == Some("eml")`. -/
def is_eml_file (path : RStr) : Bool :=
  rustExtension path == some "eml".data

/-- The visibility predicate exactly as the claim states it: the file
name ends in `.eml` and does not begin with `.`. -/
def claimVisible (name : RStr) : Bool :=
  ".eml".data.isSuffixOf name && !(name.head? == some '.')

theorem findLastIdx_eq_none_of_all_false (p : Char → Bool) (l : RStr)
    (h : ∀ c ∈ l, p c = false) : findLastIdx p l = none := by
  induction l with
  | nil => rfl
  | cons c rest ih =>
    have hc : p c = false := h c (List.mem_cons_self c rest)
    have hrest := ih (fun d hd => h d (List.mem_cons_of_mem c hd))
    simp [findLastIdx, hrest, hc]

theorem findLastIdx_append_last (p : Char → Bool) (xs ys : RStr)
    (d : Char) (hd : p d = true) (hys : ∀ c ∈ ys, p c = false) :
    findLastIdx p (xs ++ d :: ys) = some xs.length := by
  induction xs with
  | nil =>
    simp [findLastIdx, findLastIdx_eq_none_of_all_false p ys hys, hd]
  | cons c xs ih =>
    simp [findLastIdx, ih]

theorem findLastIdx_some_split (p : Char → Bool) (l : RStr) (i : Nat)
    (h : findLastIdx p l = some i) :
    ∃ x pre suf, l = pre ++ x :: suf ∧ pre.length = i ∧ p x = true := by
  induction l generalizing i with
  | nil => simp [findLastIdx] at h
  | cons c rest ih =>
    simp only [findLastIdx] at h
    rcases hr : findLastIdx p rest with _ | j
    · rw [hr] at h
      by_cases hc : p c = true
      · rw [if_pos hc] at h
        cases h
        exact ⟨c, [], rest, rfl, rfl, hc⟩
      · rw [if_neg hc] at h
        simp at h
    · rw [hr] at h
      cases h
      rcases ih j hr with ⟨x, pre, suf, hsplit, hlen, hx⟩
      exact ⟨x, c :: pre, suf, by simp [hsplit], by simp [hlen], hx⟩

theorem splitOnPred_of_all_false (p : Char → Bool) (l : RStr)
    (h : ∀ c ∈ l, p c = false) : splitOnPred p l = [l] := by
  induction l with
  | nil => rfl
  | cons c rest ih =>
    have hc : p c = false := h c (List.mem_cons_self c rest)
    have hrest := ih (fun d hd => h d (List.mem_cons_of_mem c hd))
    simp [splitOnPred, hrest, hc]

/-- C8 counterexample: a file name that begins with `.` and also ends
in `.eml` IS visible to the dispatcher (`Path::extension` of
`.hidden.eml` is `eml`), contradicting the claim that leading-dot
names are never considered. -/
theorem is_eml_file_accepts_leading_dot :
    is_eml_file ".hidden.eml".data = true ∧
    claimVisible ".hidden.eml".data = false := by
  exact ⟨by decide, by decide⟩

theorem drop_append_cons (pre : RStr) (x : Char) (suf : RStr) :
    (pre ++ x :: suf).drop (pre.length + 1) = suf := by
  rw [show pre ++ x :: suf = (pre ++ [x]) ++ suf by simp]
  rw [show pre.length + 1 = (pre ++ [x]).length by simp]
  exact List.drop_left _ _

/-- C8 amended: for a file name (no `/`), the dispatcher considers it
iff the name ends in `.eml` with at least one character before that
suffix; a leading `.` does not hide a name that has another `.`
(`.hidden.eml` is visible), and only the bare name `.eml` is
invisible. -/
theorem is_eml_file_characterization (name : RStr)
    (hslash : ∀ c ∈ name, (c == '/') = false) :
    is_eml_file name = true ↔
      (".eml".data.isSuffixOf name = true ∧ 5 ≤ name.length) := by
  rcases name with _ | ⟨c0, rest⟩
  · simp [is_eml_file, rustExtension, rustFileName, splitOnPred]
  · by_cases hdd : c0 :: rest = "..".data
    · rw [hdd]
      simp [is_eml_file, rustExtension, rustFileName, splitOnPred_of_all_false,
        show splitOnPred (fun c => c == '/') "..".data = ["..".data] from rfl]
    · have hfile : rustFileName (c0 :: rest) = some (c0 :: rest) := by
        rw [rustFileName]
        rw [splitOnPred_of_all_false _ _ hslash]
        simp [hdd]
        intro h1 h2
        subst h1
        subst h2
        exact hdd rfl
      have hext : rustExtension (c0 :: rest) =
          (findLastIdx (fun c => c == '.') rest).map
            (fun i => rest.drop (i + 1)) := by
        rw [rustExtension, hfile]
      constructor
      · intro h
        simp only [is_eml_file, beq_iff_eq, hext] at h
        rcases hfi : findLastIdx (fun c => c == '.') rest with _ | i
        · rw [hfi] at h
          simp at h
        · rw [hfi, Option.map_some'] at h
          injection h with h
          rcases findLastIdx_some_split _ _ _ hfi with
            ⟨x, pre, suf, hsplit, hplen, hx⟩
          have hxdot : x = '.' := by simpa using hx
          subst hxdot
          have hsuf : rest.drop (i + 1) = suf := by
            rw [hsplit, ← hplen]
            exact drop_append_cons _ _ _
          have hsufeml : suf = "eml".data := hsuf.symm.trans h
          have hname : c0 :: rest = (c0 :: pre) ++ ".eml".data := by
            rw [hsplit, hsufeml,
              show (".eml".data : RStr) = '.' :: "eml".data from rfl]
            rfl
          constructor
          · rw [hname, List.isSuffixOf_iff_suffix]
            exact List.suffix_append _ _
          · rw [hname]
            simp [List.length_append]
      · rintro ⟨hsuf, hlen⟩
        rw [List.isSuffixOf_iff_suffix] at hsuf
        obtain ⟨t, ht⟩ := hsuf
        rcases t with _ | ⟨t0, ts⟩
        · have hl := congrArg List.length ht
          simp at hl hlen
          omega
        · have hrest : rest = ts ++ ".eml".data := by
            injection ht with h1 h2
            exact h2.symm
          simp only [is_eml_file, hext, beq_iff_eq]
          rw [hrest, show (".eml".data : RStr) = '.' :: "eml".data from rfl]
          rw [findLastIdx_append_last _ ts "eml".data '.' rfl (by decide)]
          simp only [Option.map_some']
          rw [drop_append_cons]

end Bouncer

namespace Bouncer

/-- Witness for the amended C8 theorem at a concrete file name. -/
theorem is_eml_file_characterization_witness :
    is_eml_file "a.eml".data = true ↔
      (".eml".data.isSuffixOf "a.eml".data = true ∧
        5 ≤ "a.eml".data.length) :=
  is_eml_file_characterization "a.eml".data (by decide)

end Bouncer

/-! ## C10: ACK-after-effect ordering (`server.rs::handle_client`) -/

namespace Bouncer

/-- The dispatch classes of `handle_client` in `server.rs`:
`header.kind` equal to `heartbeat`, `register`, `observer_event`, or
anything else / absent (raw mail). -/
inductive FrameKind where
  | heartbeat
  | register
  | observer_event
  | raw_mail
deriving DecidableEq

/-- The externally observable per-frame actions of `handle_client`:
applying an observer event to the database, enqueuing raw mail to the
spool (each recording whether the call returned `Ok`), and writing the
3-byte `OK\n` ACK to the client. -/
inductive ServerAction where
  | applyObserverEvent (ok : Bool)
  | enqueueSpool (ok : Bool)
  | writeAck
deriving DecidableEq

/-- One iteration of the frame loop in `handle_client` from
`server.rs`, for a successfully read and header-decoded frame: returns
the ordered action trace and the control-flow result (`ok` = continue
the loop, `error` = the handler returns the error and the connection
terminates).  JSON body decoding for `observer_event` is the
`decode_ok` oracle and the database/spool side effect the `effect`
oracle; the oracles are consulted exactly where the source calls the
corresponding fallible operation. -/
def handle_frame (kind : FrameKind) (decode_ok : Bool)
    (effect : Except Unit Unit) : List ServerAction × Except Unit Unit :=
  match kind with
  | .heartbeat => ([.writeAck], .ok ())
  | .register => ([.writeAck], .ok ())
  | .observer_event =>
    if !decode_ok then ([], .error ())
    else
      match effect with
      | .ok () => ([.applyObserverEvent true, .writeAck], .ok ())
      | .error () => ([.applyObserverEvent false], .error ())
  | .raw_mail =>
    match effect with
    | .ok () => ([.enqueueSpool true, .writeAck], .ok ())
    | .error () => ([.enqueueSpool false], .error ())

/-- Whether an action is a successfully completed side effect. -/
def ServerAction.isSuccessfulEffect : ServerAction → Bool
  | .applyObserverEvent ok => ok
  | .enqueueSpool ok => ok
  | .writeAck => false

/-- C10: the server ACKs a frame only after its side effect completed
successfully.  Heartbeat and register frames are ACKed directly; an
`observer_event` frame is ACKed exactly when its body decoded and
`apply_observer_event` returned `Ok`, with the effect strictly before
the ACK in the trace; a raw-mail frame is ACKed exactly when
`enqueue_mail` returned `Ok`; and whenever the effect fails the trace
contains no ACK and the handler returns the error. -/
theorem server_ack_after_effect :
    (∀ d e, handle_frame .heartbeat d e = ([.writeAck], .ok ()) ∧
      handle_frame .register d e = ([.writeAck], .ok ())) ∧
    (handle_frame .observer_event true (.ok ()) =
      ([.applyObserverEvent true, .writeAck], .ok ())) ∧
    (handle_frame .observer_event true (.error ()) =
      ([.applyObserverEvent false], .error ())) ∧
    (∀ e, handle_frame .observer_event false e = ([], .error ())) ∧
    (handle_frame .raw_mail true (.ok ()) =
      ([.enqueueSpool true, .writeAck], .ok ())) ∧
    (∀ d, handle_frame .raw_mail d (.error ()) =
      ([.enqueueSpool false], .error ())) ∧
    (∀ kind d e, ((handle_frame kind d e).1.contains .writeAck &&
        !(kind == .heartbeat) && !(kind == .register)) = true →
      (handle_frame kind d e).1 =
        [ServerAction.applyObserverEvent true, .writeAck] ∨
      (handle_frame kind d e).1 =
        [ServerAction.enqueueSpool true, .writeAck]) := by
  refine ⟨?_, rfl, rfl, ?_, rfl, ?_, ?_⟩
  · intro d e
    exact ⟨rfl, rfl⟩
  · intro e
    rfl
  · intro d
    rfl
  · intro kind d e h
    cases kind with
    | heartbeat => simp at h
    | register => simp at h
    | observer_event =>
      cases d with
      | false => simp [handle_frame] at h
      | true =>
        rcases e with u | u
        · simp [handle_frame] at h
        · cases u
          exact Or.inl rfl
    | raw_mail =>
      rcases e with u | u
      · simp [handle_frame] at h
      · cases u
        exact Or.inr rfl

/-- Witness for C10: the effect-failure clause at a concrete frame. -/
theorem server_ack_after_effect_witness :
    handle_frame .observer_event true (.ok ()) =
      ([.applyObserverEvent true, .writeAck], .ok ()) ∧
    handle_frame .raw_mail true (.error ()) =
      ([.enqueueSpool false], .error ()) ∧
    ((handle_frame .raw_mail true (.ok ())).1 =
        [ServerAction.applyObserverEvent true, .writeAck] ∨
      (handle_frame .raw_mail true (.ok ())).1 =
        [ServerAction.enqueueSpool true, .writeAck]) :=
  ⟨server_ack_after_effect.2.1, server_ack_after_effect.2.2.2.2.2.1 true,
    server_ack_after_effect.2.2.2.2.2.2 .raw_mail true (.ok ()) (by decide)⟩

end Bouncer

/-! ## C3: bounce-parser hash source restriction
(`bouncer-server/src/core/parser.rs`)

The MIME tree walk done by the external `mail_parser` crate
(`collect_attachment_text_candidates_from_attachments` /
`_from_text_bodies`, `part_mime_type`, `decoded_part_text`) is
abstracted as the input: a flat list of `MimePart`s, each carrying the
mime type `part_mime_type` would report and the decoded text, plus the
lossy full-message text.  Everything downstream of that boundary is
translated from the source. -/

namespace Bouncer

namespace Parser

/-- `normalize_message_hash` from the server `parser.rs`: strips angle
brackets, keeps the local part before `@`, filters to
ASCII-alphanumeric, and accepts any non-empty result (unlike the
observer's 32-char variant). -/
def normalize_message_hash (value : RStr) : Option RStr :=
  let trimmed := trimMatchesPred (fun c => c == '<' || c == '>')
    (rustTrim value)
  let local_part := rustTrim
    ((splitOnPred (fun c => c == '@') trimmed).headD [])
  let hash := local_part.filter (fun c => c.isAlphanum)
  if hash == [] then none else some hash

/-- The `while let Some(open_rel) = value[start..].find('<')` loop of
`extract_hash_from_message_id_like_header`: scan `<…>` tokens left to
right, returning the first whose contents normalize.  The loop
consumes at least one char per iteration, so `value.length + 1` fuel
makes the recursion total. -/
def scanAngleTokens : Nat → RStr → Option RStr
  | 0, _ => none
  | fuel + 1, s =>
    match splitOnceChar '<' s with
    | none => none
    | some (_, afterOpen) =>
      match splitOnceChar '>' afterOpen with
      | none => none
      | some (middle, afterClose) =>
        match normalize_message_hash ('<' :: (middle ++ ['>'])) with
        | some h => some h
        | none => scanAngleTokens fuel afterClose

/-- `extract_hash_from_message_id_like_header` from the server
`parser.rs`: prefer `<…>` tokens, then whitespace-separated tokens,
then the whole value. -/
def extract_hash_from_message_id_like_header (value : RStr) : Option RStr :=
  match scanAngleTokens (value.length + 1) value with
  | some h => some h
  | none =>
    match (splitWhitespace value).findSome? normalize_message_hash with
    | some h => some h
    | none => normalize_message_hash value

/-- `header_value` from the server `parser.rs`. -/
def header_value (line : RStr) (header_name : RStr) : Option RStr :=
  match splitOnceChar ':' line with
  | none => none
  | some (nm, value) =>
    if eqIgnoreAsciiCase (rustTrim nm) header_name then some (rustTrim value)
    else none

/-- `ParsedFields` from the server `parser.rs` (`hash_priority` is a
`u8`; only the values `0..=10` and `u8::MAX = 255` occur). -/
structure ParsedFields where
  hash : Option RStr
  hash_priority : Nat
  status_code : Option RStr
  action : Option RStr
  recipient : Option RStr
  description : Option RStr
deriving DecidableEq

/-- `ParsedFields::default` from the server `parser.rs`. -/
def ParsedFields.empty : ParsedFields :=
  ⟨none, 255, none, none, none, none⟩

/-- `hash_header_priority` from the server `parser.rs`. -/
def hash_header_priority (header_name : RStr) : Nat :=
  let l := toAsciiLower header_name
  if l == "x-message-id".data then 0
  else if l == "x-ms-exchange-parent-message-id".data then 1
  else if l == "in-reply-to".data then 2
  else if l == "references".data then 3
  else if l == "message-id".data then 4
  else 10

/-- `is_valid_status_code` from the server `parser.rs`. -/
def is_valid_status_code (code : RStr) : Bool :=
  (!(code == [])) && decide (code.length ≤ 20) &&
    code.all (fun c => c.isDigit || c == '.')

/-- `parse_status_code` from the server `parser.rs`. -/
def parse_status_code (value : RStr) : Option RStr :=
  let candidate := rustTrim ((splitWhitespace value).headD [])
  if is_valid_status_code candidate then some candidate else none

/-- `try_set_hash_from_header` from the server `parser.rs`. -/
def try_set_hash_from_header (parsed : ParsedFields)
    (line header_name : RStr) : ParsedFields :=
  match header_value line header_name with
  | none => parsed
  | some value =>
    match extract_hash_from_message_id_like_header value with
    | none => parsed
    | some hash =>
      let priority := hash_header_priority header_name
      if parsed.hash.isSome && decide (parsed.hash_priority ≤ priority) then
        parsed
      else { parsed with hash := some hash, hash_priority := priority }

/-- `apply_header_line` from the server `parser.rs`: the five hash
headers in priority order, then `Status`, `Action`,
`Original-Recipient`/`Final-Recipient`, `Diagnostic-Code`. -/
def apply_header_line (parsed0 : ParsedFields) (line : RStr) : ParsedFields :=
  let p1 := try_set_hash_from_header parsed0 line "X-Message-Id".data
  let p2 := try_set_hash_from_header p1 line
    "X-MS-Exchange-Parent-Message-Id".data
  let p3 := try_set_hash_from_header p2 line "In-Reply-To".data
  let p4 := try_set_hash_from_header p3 line "References".data
  let p5 := try_set_hash_from_header p4 line "Message-ID".data
  let p6 :=
    if p5.status_code.isNone then
      match header_value line "Status".data with
      | some value => { p5 with status_code := parse_status_code value }
      | none => p5
    else p5
  let p7 :=
    if p6.action.isNone then
      match header_value line "Action".data with
      | some value =>
        let word := rustTrim ((splitWhitespace value).headD [])
        if word == [] then p6 else { p6 with action := some word }
      | none => p6
    else p6
  let p8 :=
    if p7.recipient.isNone then
      match (header_value line "Original-Recipient".data).orElse
          (fun _ => header_value line "Final-Recipient".data) with
      | some value =>
        let recipient :=
          match splitOnceChar ';' value with
          | some pr => rustTrim pr.2
          | none => rustTrim value
        if recipient == [] then p7
        else { p7 with recipient := some recipient }
      | none => p7
    else p7
  if p8.description.isNone then
    match header_value line "Diagnostic-Code".data with
    | some value =>
      let description :=
        match splitOnceChar ';' value with
        | some pr => rustTrim pr.2
        | none => rustTrim value
      if description == [] then p8
      else { p8 with description := some description }
    | none => p8
  else p8

/-- The line loop of `parse_fields_from_text` from the server
`parser.rs`, carrying the `current` unfolding buffer; returns early
(lazy stop) once hash and status code are both set. -/
def parse_fields_loop (parsed : ParsedFields) (current : RStr) :
    List RStr → ParsedFields
  | [] => if !(current == []) then apply_header_line parsed current else parsed
  | raw :: rest =>
    let line := trimEndMatchesChar '\r' raw
    if line.head? == some ' ' || line.head? == some '\t' then
      let current2 :=
        if !(current == []) then current ++ ' ' :: rustTrimStart line
        else current
      parse_fields_loop parsed current2 rest
    else
      if !(current == []) then
        let parsed2 := apply_header_line parsed current
        if parsed2.hash.isSome && parsed2.status_code.isSome then parsed2
        else parse_fields_loop parsed2 line rest
      else parse_fields_loop parsed line rest

/-- `parse_fields_from_text` from the server `parser.rs`. -/
def parse_fields_from_text (text : RStr) : ParsedFields :=
  parse_fields_loop ParsedFields.empty [] (rustLines text)

/-- `merge_missing` from the server `parser.rs`: hash replaced only by
a strictly higher-priority one; every other field is first-wins. -/
def merge_missing (target source : ParsedFields) : ParsedFields :=
  let t1 :=
    if source.hash.isSome && (target.hash.isNone ||
        decide (source.hash_priority < target.hash_priority)) then
      { target with
        hash := source.hash
        hash_priority := source.hash_priority }
    else target
  let t2 :=
    if t1.status_code.isNone then { t1 with status_code := source.status_code }
    else t1
  let t3 := if t2.action.isNone then { t2 with action := source.action } else t2
  let t4 :=
    if t3.recipient.isNone then { t3 with recipient := source.recipient }
    else t3
  if t4.description.isNone then { t4 with description := source.description }
  else t4

/-- `CandidateKind` from the server `parser.rs`. -/
inductive CandidateKind where
  | DeliveryStatus
  | OriginalHeaders
  | OriginalMessage
  | TextBody
  | Other
deriving DecidableEq

/-- `constrain_hash_source` from the server `parser.rs`: outside the
original sections the hash is suppressed. -/
def constrain_hash_source (parsed : ParsedFields) (kind : CandidateKind) :
    ParsedFields :=
  match kind with
  | .OriginalHeaders => parsed
  | .OriginalMessage => parsed
  | _ => { parsed with hash := none, hash_priority := 255 }

/-- The marker list of `looks_like_delivery_report` from the server
`parser.rs`. -/
def DELIVERY_REPORT_MARKERS : List RStr :=
  ["final-recipient:".data, "original-recipient:".data,
    "diagnostic-code:".data, "report-type=delivery-status".data,
    "message/delivery-status".data, "undelivered".data,
    "mail delivery".data, "returned mail".data]

/-- `looks_like_delivery_report` from the server `parser.rs`. -/
def looks_like_delivery_report (text : RStr) : Bool :=
  let lower := toAsciiLower text
  DELIVERY_REPORT_MARKERS.any (fun marker => containsSubstr lower marker)

/-- `find_status_code_in_text` from the server `parser.rs`. -/
def find_status_code_in_text (text : RStr) : Option RStr :=
  (splitOnPred (fun ch => !(ch.isDigit || ch == '.')) text).find?
    (fun token =>
      decide (5 ≤ token.length) && decide (2 ≤ token.count '.') &&
      is_valid_status_code token &&
      ("2.".data.isPrefixOf token || "4.".data.isPrefixOf token ||
        "5.".data.isPrefixOf token))

/-- A MIME part as the `mail_parser` boundary delivers it: the mime
type `part_mime_type` reports and the decoded text. -/
structure MimePart where
  mime : RStr
  text : RStr
deriving DecidableEq

/-- `AttachmentScanCandidate` from the server `parser.rs` (the
`scan_label` used only for logging is dropped). -/
structure AttachmentScanCandidate where
  text : RStr
  kind : CandidateKind
  priority : Nat
deriving DecidableEq

/-- `should_scan_attachment_mime` from the server `parser.rs`. -/
def should_scan_attachment_mime (mime : RStr) : Bool :=
  mime == "message/delivery-status".data ||
    mime == "message/rfc822".data || "text/".data.isPrefixOf mime

/-- `classify_attachment_kind` from the server `parser.rs`. -/
def classify_attachment_kind (mime : RStr) : CandidateKind :=
  if mime == "message/delivery-status".data then .DeliveryStatus
  else if mime == "text/rfc822-headers".data then .OriginalHeaders
  else if mime == "message/rfc822".data then .OriginalMessage
  else if "text/".data.isPrefixOf mime then .TextBody
  else .Other

/-- `attachment_scan_priority` from the server `parser.rs`. -/
def attachment_scan_priority (kind : CandidateKind) (text : RStr) : Nat :=
  match kind with
  | .DeliveryStatus => 0
  | .OriginalHeaders => 1
  | .OriginalMessage => 2
  | .TextBody => if looks_like_delivery_report text then 3 else 4
  | .Other => if looks_like_delivery_report text then 4 else 5

/-- Stable insertion preserving the relative order of equal
priorities, as `Vec::sort_by_key` does. -/
def insertByPriority (c : AttachmentScanCandidate) :
    List AttachmentScanCandidate → List AttachmentScanCandidate
  | [] => [c]
  | d :: rest =>
    if c.priority ≤ d.priority then c :: d :: rest
    else d :: insertByPriority c rest

/-- The stable `sort_by_key(priority)` of
`collect_attachment_text_candidates`. -/
def sortByPriority : List AttachmentScanCandidate →
    List AttachmentScanCandidate
  | [] => []
  | c :: rest => insertByPriority c (sortByPriority rest)

/-- `collect_attachment_text_candidates` from the server `parser.rs`,
over the abstracted part list: keep the scannable mime types with
non-blank text, classify, attach the scan priority, and sort stably by
priority.  (In the source, parts reached through `text_bodies()` are
forced to kind `TextBody`; under any hypothesis excluding
`text/rfc822-headers` parts this coincides with classifying by mime.) -/
def collect_attachment_text_candidates (parts : List MimePart) :
    List AttachmentScanCandidate :=
  sortByPriority (parts.filterMap (fun part =>
    if should_scan_attachment_mime part.mime &&
        !(rustTrim part.text == []) then
      some ⟨part.text, classify_attachment_kind part.mime,
        attachment_scan_priority (classify_attachment_kind part.mime)
          part.text⟩
    else none))

/-- The `looks_like_report` computation at the top of
`parse_bounce_report_detailed`. -/
def delivery_report_detected (cands : List AttachmentScanCandidate)
    (full_text : RStr) : Bool :=
  cands.any (fun c => c.kind == CandidateKind.DeliveryStatus) ||
    cands.any (fun c => looks_like_delivery_report c.text) ||
    looks_like_delivery_report full_text

/-- The first (typed) candidate loop of `parse_bounce_report_detailed`:
`DeliveryStatus` parts contribute status metadata but never a hash,
original sections contribute only a hash, `TextBody`/`Other` are
skipped (`continue`), and the loop breaks once hash and status code are
both set. -/
def primary_scan (merged : ParsedFields) :
    List AttachmentScanCandidate → ParsedFields
  | [] => merged
  | c :: rest =>
    match c.kind with
    | .TextBody => primary_scan merged rest
    | .Other => primary_scan merged rest
    | .DeliveryStatus =>
      let parsed := parse_fields_from_text c.text
      let parsed := { parsed with hash := none, hash_priority := 255 }
      let merged2 := merge_missing merged parsed
      if merged2.hash.isSome && merged2.status_code.isSome then merged2
      else primary_scan merged2 rest
    | .OriginalHeaders =>
      let parsed := parse_fields_from_text c.text
      let parsed := { parsed with
        status_code := none
        action := none
        recipient := none
        description := none }
      let merged2 := merge_missing merged parsed
      if merged2.hash.isSome && merged2.status_code.isSome then merged2
      else primary_scan merged2 rest
    | .OriginalMessage =>
      let parsed := parse_fields_from_text c.text
      let parsed := { parsed with
        status_code := none
        action := none
        recipient := none
        description := none }
      let merged2 := merge_missing merged parsed
      if merged2.hash.isSome && merged2.status_code.isSome then merged2
      else primary_scan merged2 rest

/-- The fallback candidate loop of `parse_bounce_report_detailed`:
every candidate is scanned, but `constrain_hash_source` suppresses the
hash outside original sections. -/
def fallback_scan (merged : ParsedFields) :
    List AttachmentScanCandidate → ParsedFields
  | [] => merged
  | c :: rest =>
    let parsed := constrain_hash_source (parse_fields_from_text c.text) c.kind
    let merged2 := merge_missing merged parsed
    if merged2.hash.isSome && merged2.status_code.isSome then merged2
    else fallback_scan merged2 rest

/-- `parse_bounce_report_detailed` from the server `parser.rs`, over
the abstracted MIME boundary: detection, typed scan, fallback scan,
full-message scan with the hash suppressed, then the two loose
status-code hunts, and finally the `MissingHash` / `MissingStatusCode`
checks in that order. -/
def parse_bounce_report_detailed (parts : List MimePart)
    (full_text : RStr) : Except ParserError ParsedBounce :=
  let attachment_candidates := collect_attachment_text_candidates parts
  if !delivery_report_detected attachment_candidates full_text then
    .error .NotDeliveryReport
  else
    let merged := primary_scan ParsedFields.empty attachment_candidates
    let merged :=
      if merged.hash.isNone || merged.status_code.isNone then
        fallback_scan merged attachment_candidates
      else merged
    let merged :=
      if merged.status_code.isNone then
        let parsed := parse_fields_from_text full_text
        merge_missing merged
          { parsed with hash := none, hash_priority := 255 }
      else merged
    let merged :=
      if merged.status_code.isNone then
        match attachment_candidates.findSome?
            (fun c => find_status_code_in_text c.text) with
        | some code => { merged with status_code := some code }
        | none => merged
      else merged
    let merged :=
      if merged.status_code.isNone then
        { merged with status_code := find_status_code_in_text full_text }
      else merged
    match merged.hash with
    | none => .error .MissingHash
    | some hash =>
      match merged.status_code with
      | none => .error .MissingStatusCode
      | some status_code =>
        .ok ⟨hash, status_code, merged.action, merged.recipient,
          merged.description⟩

end Parser

end Bouncer

namespace Bouncer

set_option maxRecDepth 20000 in
/-- Embedding sanity check mirroring the source test
`parses_postfix_delivery_status_with_hash_from_rfc822_part`: the hash
comes from the `message/rfc822` part, the status metadata from the
`message/delivery-status` part. -/
theorem parse_bounce_report_detailed_positive_sample :
    Parser.parse_bounce_report_detailed
      [⟨"message/delivery-status".data,
        "Final-Recipient: rfc822; janedoe@gmail.com\nAction: failed\nStatus: 5.7.1\nDiagnostic-Code: smtp; 550-5.7.1 suspicious\n".data⟩,
       ⟨"message/rfc822".data,
        "From: noreply@claviron.app\nTo: janedoe@gmail.com\nMessage-ID: <c27335e4586d69311bb4668e9dc70bd5@claviron.app>\nSubject: test\n".data⟩]
      "full message text".data =
    .ok ⟨"c27335e4586d69311bb4668e9dc70bd5".data, "5.7.1".data,
      some "failed".data, some "janedoe@gmail.com".data,
      some "550-5.7.1 suspicious".data⟩ := rfl

end Bouncer

namespace Bouncer

theorem merge_missing_hash_none (t s : Parser.ParsedFields)
    (hs : s.hash = none) (ht : t.hash = none) :
    (Parser.merge_missing t s).hash = none := by
  simp only [Parser.merge_missing, hs, Option.isSome_none, Bool.false_and,
    Bool.false_eq_true, if_false]
  split
  · split
    · split
      · split
        · exact ht
        · exact ht
      · split
        · exact ht
        · exact ht
    · split
      · split
        · exact ht
        · exact ht
      · split
        · exact ht
        · exact ht
  · split
    · split
      · split
        · exact ht
        · exact ht
      · split
        · exact ht
        · exact ht
    · split
      · split
        · exact ht
        · exact ht
      · split
        · exact ht
        · exact ht

theorem constrain_hash_source_hash_none (p : Parser.ParsedFields)
    (kind : Parser.CandidateKind)
    (hk1 : kind ≠ Parser.CandidateKind.OriginalHeaders)
    (hk2 : kind ≠ Parser.CandidateKind.OriginalMessage) :
    (Parser.constrain_hash_source p kind).hash = none := by
  cases kind with
  | OriginalHeaders => exact absurd rfl hk1
  | OriginalMessage => exact absurd rfl hk2
  | DeliveryStatus => rfl
  | TextBody => rfl
  | Other => rfl

theorem primary_scan_hash_none (cands : List Parser.AttachmentScanCandidate)
    (m : Parser.ParsedFields) (hm : m.hash = none)
    (hk : ∀ c ∈ cands, c.kind ≠ Parser.CandidateKind.OriginalHeaders ∧
      c.kind ≠ Parser.CandidateKind.OriginalMessage) :
    (Parser.primary_scan m cands).hash = none := by
  induction cands generalizing m with
  | nil => simpa [Parser.primary_scan] using hm
  | cons c rest ih =>
    have hc := hk c (List.mem_cons_self c rest)
    have hrest : ∀ d ∈ rest,
        d.kind ≠ Parser.CandidateKind.OriginalHeaders ∧
        d.kind ≠ Parser.CandidateKind.OriginalMessage :=
      fun d hd => hk d (List.mem_cons_of_mem c hd)
    rcases c with ⟨text, kind, prio⟩
    cases kind with
    | OriginalHeaders => exact absurd rfl hc.1
    | OriginalMessage => exact absurd rfl hc.2
    | TextBody => exact ih m hm hrest
    | Other => exact ih m hm hrest
    | DeliveryStatus =>
      have hm2 : (Parser.merge_missing m
          { Parser.parse_fields_from_text text with
            hash := none, hash_priority := 255 }).hash = none :=
        merge_missing_hash_none _ _ rfl hm
      simp only [Parser.primary_scan, hm2, Option.isSome_none,
        Bool.false_and, Bool.false_eq_true, if_false]
      exact ih _ hm2 hrest

theorem fallback_scan_hash_none (cands : List Parser.AttachmentScanCandidate)
    (m : Parser.ParsedFields) (hm : m.hash = none)
    (hk : ∀ c ∈ cands, c.kind ≠ Parser.CandidateKind.OriginalHeaders ∧
      c.kind ≠ Parser.CandidateKind.OriginalMessage) :
    (Parser.fallback_scan m cands).hash = none := by
  induction cands generalizing m with
  | nil => simpa [Parser.fallback_scan] using hm
  | cons c rest ih =>
    have hc := hk c (List.mem_cons_self c rest)
    have hrest : ∀ d ∈ rest,
        d.kind ≠ Parser.CandidateKind.OriginalHeaders ∧
        d.kind ≠ Parser.CandidateKind.OriginalMessage :=
      fun d hd => hk d (List.mem_cons_of_mem c hd)
    have hm2 : (Parser.merge_missing m
        (Parser.constrain_hash_source
          (Parser.parse_fields_from_text c.text) c.kind)).hash = none :=
      merge_missing_hash_none _ _
        (constrain_hash_source_hash_none _ _ hc.1 hc.2) hm
    simp only [Parser.fallback_scan, hm2, Option.isSome_none,
      Bool.false_and, Bool.false_eq_true, if_false]
    exact ih _ hm2 hrest

theorem mem_insertByPriority (c a : Parser.AttachmentScanCandidate)
    (l : List Parser.AttachmentScanCandidate)
    (h : a ∈ Parser.insertByPriority c l) : a = c ∨ a ∈ l := by
  induction l with
  | nil => simpa [Parser.insertByPriority] using h
  | cons d rest ih =>
    simp only [Parser.insertByPriority] at h
    split at h
    · rcases List.mem_cons.mp h with h1 | h1
      · exact Or.inl h1
      · exact Or.inr h1
    · rcases List.mem_cons.mp h with h1 | h1
      · exact Or.inr (by simp [h1])
      · rcases ih h1 with h2 | h2
        · exact Or.inl h2
        · exact Or.inr (List.mem_cons_of_mem d h2)

theorem mem_sortByPriority (a : Parser.AttachmentScanCandidate)
    (l : List Parser.AttachmentScanCandidate)
    (h : a ∈ Parser.sortByPriority l) : a ∈ l := by
  induction l with
  | nil => simp [Parser.sortByPriority] at h
  | cons c rest ih =>
    simp only [Parser.sortByPriority] at h
    rcases mem_insertByPriority c a _ h with h2 | h2
    · simp [h2]
    · exact List.mem_cons_of_mem c (ih h2)

theorem classify_not_original (mime : RStr)
    (h1 : mime ≠ "message/rfc822".data)
    (h2 : mime ≠ "text/rfc822-headers".data) :
    Parser.classify_attachment_kind mime ≠
        Parser.CandidateKind.OriginalHeaders ∧
    Parser.classify_attachment_kind mime ≠
        Parser.CandidateKind.OriginalMessage := by
  unfold Parser.classify_attachment_kind
  split_ifs with g1 g2 g3 g4 <;> simp_all

theorem collect_kind_from_part (parts : List Parser.MimePart)
    (c : Parser.AttachmentScanCandidate)
    (hc : c ∈ Parser.collect_attachment_text_candidates parts) :
    ∃ p ∈ parts, c.kind = Parser.classify_attachment_kind p.mime := by
  unfold Parser.collect_attachment_text_candidates at hc
  have hc2 := mem_sortByPriority _ _ hc
  rcases List.mem_filterMap.mp hc2 with ⟨p, hp, hpc⟩
  refine ⟨p, hp, ?_⟩
  by_cases hcond : (Parser.should_scan_attachment_mime p.mime &&
      !(rustTrim p.text == [])) = true
  · rw [if_pos hcond] at hpc
    injection hpc with hpc
    rw [← hpc]
  · rw [if_neg hcond] at hpc
    simp at hpc

end Bouncer

namespace Bouncer

theorem stage3_hash (m : Parser.ParsedFields) (full_text : RStr)
    (hm : m.hash = none) :
    (if m.status_code.isNone then
        Parser.merge_missing m
          { Parser.parse_fields_from_text full_text with
            hash := none, hash_priority := 255 }
      else m).hash = none := by
  by_cases h3 : m.status_code.isNone = true
  · simp only [h3, if_true]
    exact merge_missing_hash_none _ _ rfl hm
  · simpa [h3] using hm

theorem stage4_hash (m : Parser.ParsedFields)
    (cands : List Parser.AttachmentScanCandidate) :
    (if m.status_code.isNone then
        match cands.findSome?
            (fun c => Parser.find_status_code_in_text c.text) with
        | some code => { m with status_code := some code }
        | none => m
      else m).hash = m.hash := by
  by_cases h : m.status_code.isNone = true
  · simp only [h, if_true]
    cases cands.findSome? (fun c => Parser.find_status_code_in_text c.text)
      <;> rfl
  · simp [h]

theorem stage5_hash (m : Parser.ParsedFields) (full_text : RStr) :
    (if m.status_code.isNone then
        { m with status_code := Parser.find_status_code_in_text full_text }
      else m).hash = m.hash := by
  by_cases h : m.status_code.isNone = true <;> simp [h]

/-- C3: the parser never takes the hash from the bounce's own headers
or any non-original section.  For every input whose MIME parts include
no `message/rfc822` part and no `text/rfc822-headers` part, the result
is always an error: `MissingHash` when the delivery-report detection
fires, `NotDeliveryReport` otherwise — never `Ok`, regardless of any
`Message-ID`, `References`, `In-Reply-To`, or `X-Message-Id` headers in
the top-level text or in `message/delivery-status` parts. -/
theorem parser_hash_only_from_original_sections
    (parts : List Parser.MimePart) (full_text : RStr)
    (h : ∀ p ∈ parts, p.mime ≠ "message/rfc822".data ∧
      p.mime ≠ "text/rfc822-headers".data) :
    Parser.parse_bounce_report_detailed parts full_text =
      .error (if Parser.delivery_report_detected
          (Parser.collect_attachment_text_candidates parts) full_text then
        ParserError.MissingHash
      else ParserError.NotDeliveryReport) := by
  have hk : ∀ c ∈ Parser.collect_attachment_text_candidates parts,
      c.kind ≠ Parser.CandidateKind.OriginalHeaders ∧
      c.kind ≠ Parser.CandidateKind.OriginalMessage := by
    intro c hc
    rcases collect_kind_from_part parts c hc with ⟨p, hp, hck⟩
    rw [hck]
    exact classify_not_original p.mime (h p hp).1 (h p hp).2
  by_cases hdet : Parser.delivery_report_detected
      (Parser.collect_attachment_text_candidates parts) full_text = true
  · rw [if_pos hdet]
    simp only [Parser.parse_bounce_report_detailed, hdet, Bool.not_true,
      Bool.false_eq_true, if_false]
    have h1 : (Parser.primary_scan Parser.ParsedFields.empty
        (Parser.collect_attachment_text_candidates parts)).hash = none :=
      primary_scan_hash_none _ _ rfl hk
    simp only [h1, Option.isNone_none, Bool.true_or, if_true]
    have h2 : (Parser.fallback_scan
        (Parser.primary_scan Parser.ParsedFields.empty
          (Parser.collect_attachment_text_candidates parts))
        (Parser.collect_attachment_text_candidates parts)).hash = none :=
      fallback_scan_hash_none _ _ h1 hk
    rw [stage5_hash, stage4_hash, stage3_hash _ _ h2]
  · have hdet2 : Parser.delivery_report_detected
        (Parser.collect_attachment_text_candidates parts) full_text =
          false := by
      simpa using hdet
    rw [if_neg hdet]
    simp only [Parser.parse_bounce_report_detailed, hdet2, Bool.not_false,
      if_true]

/-- Witness for C3 at a concrete delivery-status-only bounce whose
top-level headers and DSN part carry `Message-ID`/`References` values:
the parser still reports `MissingHash`. -/
theorem parser_hash_only_from_original_sections_witness :
    Parser.parse_bounce_report_detailed
      [⟨"message/delivery-status".data,
        "Final-Recipient: rfc822; user@example.com\nAction: failed\nStatus: 5.7.1\nMessage-ID: <dsnpart@example.net>\n".data⟩]
      "Message-ID: <bouncemsg@example.net>\nReferences: <orighash@claviron.app>\nFinal-Recipient: rfc822; user@example.com\n".data =
      .error ParserError.MissingHash := by
  rw [parser_hash_only_from_original_sections
    [⟨"message/delivery-status".data,
      "Final-Recipient: rfc822; user@example.com\nAction: failed\nStatus: 5.7.1\nMessage-ID: <dsnpart@example.net>\n".data⟩]
    "Message-ID: <bouncemsg@example.net>\nReferences: <orighash@claviron.app>\nFinal-Recipient: rfc822; user@example.com\n".data
    (by decide)]
  rfl

end Bouncer
